import Mathlib

/-!
# abledecoder: the Form container (`src/FormChunk.cpp`)

A shallow embedding of `FormChunk::read`, `FormChunk::readData` and
`FormChunk::writeData`.

* The input stream is a byte list with a signed position and the failed state
  of `std::istream` (`failbit` or `badbit` set). `std::streamoff` is taken as
  an unbounded integer; every position the walk computes is at most
  `dataStart + dataSize + 1`, far from the 64-bit range. On a failed stream
  `tellg` returns `-1` and `seekg` does nothing; `seekg` to a negative position
  fails. The stream is a file: seeking past its end succeeds.
* The object state of `FormChunk` is a record; a C++ exception leaves the object
  as it was when the exception was thrown, so a failed operation returns the
  state at the throw site together with the error.
* The four leaf chunk classes and `Utils` are not part of `FormChunk.cpp`.
  Leaf chunks are parameters (`LeafOps`): arbitrary readers, writers and
  accessors. A reader is handed the stream itself, so besides throwing it can
  return normally and leave the stream at any position, failed or not. The
  primitive codec is modelled from the specification: a read that cannot be
  served raises an error.
* `trace` is ghost state: it records, in order, every sub-chunk header the walk
  reads, every call of a leaf reader, the call of `decrypt` and the
  informational notice.
* The `while` loop runs on an iteration budget; `readData` gives it the distance
  to the bound, which is never exhausted (`readData_fuel`, `walk_fuel_mono`).
  `walkHeads` lists the values of `tellg` at which loop iterations are entered
  and `scanHeaders` the headers a scan of the stream meets; both only describe
  the walk.
-/

namespace AbleDecoder

/-- One byte of a stream. -/
abbrev Byte := Fin 256

/-- A readable, seekable input stream: its content, the current position and
whether the stream is in a failed state. -/
structure IStream where
  data : List Byte
  pos : Int
  failed : Bool
  deriving DecidableEq, Repr

/-- The failures of the read path, one per throw site. `leaf code` is an
exception raised inside a leaf chunk's `readData`; `truncatedRead` is the
failure of a primitive read. `fuel` is not an error of the program: it marks a
walk that was cut off by the iteration budget of the model. -/
inductive Err where
  | notAnAIFCFile
  | unsupportedFormType
  | chunkBounds
  | unsupportedCompression
  | truncatedRead
  | leaf (code : Nat)
  | fuel
  deriving DecidableEq, Repr

/-- The four leaf chunks owned by the container. -/
inductive Leaf where
  | formatVersion
  | able
  | common
  | soundData
  deriving DecidableEq, Repr

/-- Observable steps of the read path, in the order they happen. -/
inductive Event (K : Type) where
  | header (id : Nat) (start size : Int)
  | leafRead (which : Leaf) (start size : Int)
  | decrypt (key : K)
  | info
  deriving DecidableEq, Repr

/-- Modelled from the spec: `Utils::makeId` (not in `FormChunk.cpp`) packs four
characters into a 32-bit big-endian identifier. -/
def makeId (c0 c1 c2 c3 : Char) : Nat :=
  ((c0.toNat % 256 * 256 + c1.toNat % 256) * 256 + c2.toNat % 256) * 256 + c3.toNat % 256

/-- The first four bytes of a list, when it has them. -/
def first4 : List Byte → Option (Byte × Byte × Byte × Byte)
  | b0 :: b1 :: b2 :: b3 :: _ => some (b0, b1, b2, b3)
  | _ => none

/-- Four bytes starting at the current position, when the stream is not failed
and holds them. -/
def IStream.take4 (s : IStream) : Option (Byte × Byte × Byte × Byte) :=
  if s.failed = true then none
  else if 0 ≤ s.pos then first4 (s.data.drop s.pos.toNat) else none

/-- Modelled from the spec: `Utils::readId` (not in `FormChunk.cpp`) consumes
exactly four bytes and returns them as a big-endian identifier; it fails when
fewer than four bytes are available, as on a failed stream. -/
def readId (s : IStream) : Option (Nat × IStream) :=
  match s.take4 with
  | some (b0, b1, b2, b3) =>
      some (((b0.val * 256 + b1.val) * 256 + b2.val) * 256 + b3.val, { s with pos := s.pos + 4 })
  | none => none

/-- Modelled from the spec: `Utils::readInt32` (not in `FormChunk.cpp`) consumes
exactly four bytes and returns them as a big-endian signed 32-bit integer; it
fails when fewer than four bytes are available. -/
def readInt32 (s : IStream) : Option (Int × IStream) :=
  match readId s with
  | some (u, s1) => some (if u < 2 ^ 31 then (u : Int) else (u : Int) - 2 ^ 32, s1)
  | none => none

/-- Modelled from the spec: `Utils::writeId` (not in `FormChunk.cpp`) emits the
identifier as four big-endian bytes. -/
def writeId (out : List Byte) (id : Nat) : List Byte :=
  out ++ [Fin.ofNat (id / 2 ^ 24), Fin.ofNat (id / 2 ^ 16), Fin.ofNat (id / 2 ^ 8), Fin.ofNat id]

/-- The position reported by the stream (`tellg`): `-1` on a failed stream. -/
def IStream.tellg (s : IStream) : Int := if s.failed = true then -1 else s.pos

/-- Position the stream (`seekg`): no effect on a failed stream; a negative
target makes the stream fail. -/
def IStream.seekg (s : IStream) (p : Int) : IStream :=
  if s.failed = true then s
  else if p < 0 then { s with failed := true }
  else { s with pos := p }

/-- The result of a leaf chunk's `readData`: the exception it raised, if any,
the leaf's state, and the position and failed state in which it left the
stream. -/
structure LeafResult (σ : Type) where
  err : Option Nat
  state : σ
  pos : Int
  failed : Bool

/-- The leaf chunk classes, which are not part of `FormChunk.cpp`: identifier,
bounded reader and writer of each leaf, the Common chunk's compression type,
the Able chunk's key and SoundData's `decrypt`. A reader receives the stream
(positioned at the sub-chunk's data start), the data start and the declared
size. -/
structure LeafOps (FV AB CM SD K : Type) where
  fvGetId : FV → Nat
  fvReadData : IStream → Int → Int → FV → LeafResult FV
  fvWrite : FV → List Byte
  abGetId : AB → Nat
  abReadData : IStream → Int → Int → AB → LeafResult AB
  getKey : AB → K
  cmGetId : CM → Nat
  cmReadData : IStream → Int → Int → CM → LeafResult CM
  cmWrite : CM → List Byte
  getCompressionType : CM → Nat
  sdGetId : SD → Nat
  sdReadData : IStream → Int → Int → SD → LeafResult SD
  sdWrite : SD → List Byte
  decrypt : SD → K → SD

/-- The state of a `FormChunk` object together with the input stream it reads
from and the ghost trace. -/
structure FormChunk (FV AB CM SD K : Type) where
  id : Nat
  isAIFC : Bool
  formatVersionChunk : FV
  ableChunk : AB
  commonChunk : CM
  soundDataChunk : SD
  input : IStream
  trace : List (Event K)
  deriving DecidableEq

/-- Outcome of an operation on the container: normal return or a thrown error,
each with the state at that point. -/
inductive Res (σ : Type) where
  | done (s : σ)
  | fail (e : Err) (s : σ)
  deriving DecidableEq

variable {FV AB CM SD K : Type}

/-- The state in which an outcome leaves the container. -/
def Res.state {σ : Type} : Res σ → σ
  | .done s => s
  | .fail _ s => s

/-- The error of an outcome, if it is a failure. -/
def Res.error {σ : Type} : Res σ → Option Err
  | .done _ => none
  | .fail e _ => some e

/-- `FormChunk::FormChunk()`: the identifier is `FORM`; the leaf chunks are
default-constructed (given here). -/
def FormChunk.new (fv : FV) (ab : AB) (cm : CM) (sd : SD) (input : IStream) :
    FormChunk FV AB CM SD K :=
  { id := makeId 'F' 'O' 'R' 'M', isAIFC := false, formatVersionChunk := fv, ableChunk := ab,
    commonChunk := cm, soundDataChunk := sd, input := input, trace := [] }

/-- The identifier of a leaf chunk in the current state (`getId`). -/
def leafId (ops : LeafOps FV AB CM SD K) (fc : FormChunk FV AB CM SD K) : Leaf → Nat
  | .formatVersion => ops.fvGetId fc.formatVersionChunk
  | .able => ops.abGetId fc.ableChunk
  | .common => ops.cmGetId fc.commonChunk
  | .soundData => ops.sdGetId fc.soundDataChunk

/-- Turn a leaf reader's result into the container's outcome. -/
def leafOutcome {σ : Type} (r : LeafResult σ)
    (upd : σ → Int → Bool → FormChunk FV AB CM SD K) : Res (FormChunk FV AB CM SD K) :=
  match r.err with
  | none => .done (upd r.state r.pos r.failed)
  | some c => .fail (.leaf c) (upd r.state r.pos r.failed)

/-- The call `this-><leaf>.readData(input, start, size)`: the leaf's reader runs
on the leaf's own state and on the stream, which it leaves at the position and
in the failed state it returns; the call is recorded in the trace. -/
def invoke (ops : LeafOps FV AB CM SD K) (w : Leaf) (start size : Int)
    (fc : FormChunk FV AB CM SD K) : Res (FormChunk FV AB CM SD K) :=
  let tr := fc.trace ++ [Event.leafRead w start size]
  match w with
  | .formatVersion =>
      leafOutcome (ops.fvReadData fc.input start size fc.formatVersionChunk)
        (fun st p f => { fc with formatVersionChunk := st,
                                 input := { data := fc.input.data, pos := p, failed := f },
                                 trace := tr })
  | .able =>
      leafOutcome (ops.abReadData fc.input start size fc.ableChunk)
        (fun st p f => { fc with ableChunk := st,
                                 input := { data := fc.input.data, pos := p, failed := f },
                                 trace := tr })
  | .common =>
      leafOutcome (ops.cmReadData fc.input start size fc.commonChunk)
        (fun st p f => { fc with commonChunk := st,
                                 input := { data := fc.input.data, pos := p, failed := f },
                                 trace := tr })
  | .soundData =>
      leafOutcome (ops.sdReadData fc.input start size fc.soundDataChunk)
        (fun st p f => { fc with soundDataChunk := st,
                                 input := { data := fc.input.data, pos := p, failed := f },
                                 trace := tr })

/-- The `if / else if` chain of the walk: dispatch on the sub-chunk identifier;
an unknown identifier is ignored. -/
def dispatch (ops : LeafOps FV AB CM SD K) (subChunkId : Nat) (start size : Int)
    (fc : FormChunk FV AB CM SD K) : Res (FormChunk FV AB CM SD K) :=
  if subChunkId = ops.fvGetId fc.formatVersionChunk then invoke ops .formatVersion start size fc
  else if subChunkId = ops.abGetId fc.ableChunk then invoke ops .able start size fc
  else if subChunkId = ops.cmGetId fc.commonChunk then invoke ops .common start size fc
  else if subChunkId = ops.sdGetId fc.soundDataChunk then invoke ops .soundData start size fc
  else .done fc

/-- The padded end of a sub-chunk:
`subChunkDataStart + subChunkDataSize + (subChunkDataSize % 2 == 1 ? 1 : 0)`
(`%` is the truncating remainder of C++). -/
def subChunkDataEnd (subChunkDataStart subChunkDataSize : Int) : Int :=
  subChunkDataStart + subChunkDataSize + (if Int.tmod subChunkDataSize 2 = 1 then 1 else 0)

/-- One iteration of the `while` loop of `FormChunk::readData`; `bound` is
`dataStart + dataSize`. -/
def walkStep (ops : LeafOps FV AB CM SD K) (bound : Int) (fc : FormChunk FV AB CM SD K) :
    Res (FormChunk FV AB CM SD K) :=
  match readId fc.input with
  | none => .fail .truncatedRead fc
  | some (subChunkId, in1) =>
    match readInt32 in1 with
    | none => .fail .truncatedRead { fc with input := in1 }
    | some (subChunkDataSize, in2) =>
      let subChunkDataStart := in2.tellg
      let fc2 := { fc with input := in2,
                           trace := fc.trace ++ [Event.header subChunkId subChunkDataStart subChunkDataSize] }
      if subChunkDataSize < 0 ∨ subChunkDataStart + subChunkDataSize > bound then
        .fail .chunkBounds fc2
      else
        match dispatch ops subChunkId subChunkDataStart subChunkDataSize fc2 with
        | .fail e s => .fail e s
        | .done fc3 =>
            .done { fc3 with input := fc3.input.seekg (subChunkDataEnd subChunkDataStart subChunkDataSize) }

/-- The `while (input.tellg() < dataStart + dataSize)` loop, with an iteration
budget. -/
def walk (ops : LeafOps FV AB CM SD K) (bound : Int) :
    Nat → FormChunk FV AB CM SD K → Res (FormChunk FV AB CM SD K)
  | 0, fc => if fc.input.tellg < bound then .fail .fuel fc else .done fc
  | n + 1, fc =>
    if fc.input.tellg < bound then
      match walkStep ops bound fc with
      | .fail e s => .fail e s
      | .done fc1 => walk ops bound n fc1
    else .done fc

/-- The decision after the walk: decrypt, accept an unencrypted file, or
reject the compression type. -/
def finish (ops : LeafOps FV AB CM SD K) (fc : FormChunk FV AB CM SD K) :
    Res (FormChunk FV AB CM SD K) :=
  if ops.getCompressionType fc.commonChunk = makeId 'a' 'b' 'l' 'e' then
    .done { fc with soundDataChunk := ops.decrypt fc.soundDataChunk (ops.getKey fc.ableChunk),
                    trace := fc.trace ++ [Event.decrypt (ops.getKey fc.ableChunk)] }
  else if ops.getCompressionType fc.commonChunk = makeId 'N' 'O' 'N' 'E' then
    .done { fc with trace := fc.trace ++ [Event.info] }
  else .fail .unsupportedCompression fc

/-- The iteration budget given to the walk: the distance from `tellg` to the
bound. An iteration that leaves the stream good moves it forward by at least
eight, and one that leaves it failed is followed by a single failing one. -/
def walkFuel (bound : Int) (fc : FormChunk FV AB CM SD K) : Nat :=
  (bound - fc.input.tellg).toNat

/-- `FormChunk::readData(input, dataStart, dataSize)`. -/
def readData (ops : LeafOps FV AB CM SD K) (fc : FormChunk FV AB CM SD K)
    (dataStart dataSize : Int) : Res (FormChunk FV AB CM SD K) :=
  match readId fc.input with
  | none => .fail .truncatedRead fc
  | some (formType, in1) =>
    let fc1 := { fc with input := in1 }
    let isAIFC := decide (formType = makeId 'A' 'I' 'F' 'C')
    let isAIFF := decide (formType = makeId 'A' 'I' 'F' 'F')
    if (!isAIFC && !isAIFF) = true then .fail .unsupportedFormType fc1
    else
      let fc2 := { fc1 with isAIFC := isAIFC }
      match walk ops (dataStart + dataSize) (walkFuel (dataStart + dataSize) fc2) fc2 with
      | .fail e s => .fail e s
      | .done fc3 => finish ops fc3

/-- `FormChunk::read(input)`. -/
def read (ops : LeafOps FV AB CM SD K) (fc : FormChunk FV AB CM SD K) :
    Res (FormChunk FV AB CM SD K) :=
  match readId fc.input with
  | none => .fail .truncatedRead fc
  | some (id, in1) =>
    if id ≠ fc.id then .fail .notAnAIFCFile { fc with input := in1 }
    else
      match readInt32 in1 with
      | none => .fail .truncatedRead { fc with input := in1 }
      | some (dataSize, in2) => readData ops { fc with input := in2 } in2.tellg dataSize

/-- `FormChunk::writeData(output)`: the bytes appended to the output stream. -/
def writeData (ops : LeafOps FV AB CM SD K) (fc : FormChunk FV AB CM SD K)
    (out : List Byte) : List Byte :=
  let out1 := writeId out (makeId 'A' 'I' 'F' 'C')
  let out2 := out1 ++ ops.fvWrite fc.formatVersionChunk
  let out3 := out2 ++ ops.cmWrite fc.commonChunk
  out3 ++ ops.sdWrite fc.soundDataChunk

/-- The sub-chunk headers `(identifier, data start, size)` recorded in a
trace, in order. -/
def headersOf : List (Event K) → List (Nat × Int × Int)
  | [] => []
  | Event.header id start size :: t => (id, start, size) :: headersOf t
  | Event.leafRead _ _ _ :: t => headersOf t
  | Event.decrypt _ :: t => headersOf t
  | Event.info :: t => headersOf t

/-- The sub-chunk headers met when the region up to `bound` is scanned on a good
stream from position `pos` with the stepping rule of the walk (header, then seek
to the padded end), stopping at a header that cannot be read or violates the
bounds. It looks at the stream only; it is used to describe which headers a
walk can read. -/
def scanHeaders (data : List Byte) (bound : Int) : Nat → Int → List (Nat × Int × Int)
  | 0, _ => []
  | n + 1, pos =>
    if pos < bound then
      match readId { data := data, pos := pos, failed := false } with
      | none => []
      | some (id, in1) =>
        match readInt32 in1 with
        | none => []
        | some (size, in2) =>
          (id, in2.pos, size) ::
            (if size < 0 ∨ in2.pos + size > bound then []
             else scanHeaders data bound n (subChunkDataEnd in2.pos size))
    else []

/-- The values of `tellg` at the head of the loop iterations that the walk
enters, in order: one entry for each time the loop condition holds and the body
runs (whether the body then completes or throws). -/
def walkHeads (ops : LeafOps FV AB CM SD K) (bound : Int) :
    Nat → FormChunk FV AB CM SD K → List Int
  | 0, _ => []
  | n + 1, fc =>
    if fc.input.tellg < bound then
      fc.input.tellg ::
        (match walkStep ops bound fc with
          | .fail _ _ => []
          | .done fc1 => walkHeads ops bound n fc1)
    else []

/-- A 32-bit value as four big-endian bytes. -/
def be32 (n : Nat) : List Byte :=
  [Fin.ofNat (n / 2 ^ 24), Fin.ofNat (n / 2 ^ 16), Fin.ofNat (n / 2 ^ 8), Fin.ofNat n]

/-- Modelled from the spec: the leaf chunk classes are not in `FormChunk.cpp`;
a leaf reader takes exactly the byte range `[start, start + size)` as an opaque
blob, leaves the stream good at its end, and fails (code 1) when the stream does
not hold the whole range. -/
def blobRead (inp : IStream) (start size : Int) (old : List Byte) : LeafResult (List Byte) :=
  let body := (inp.data.drop start.toNat).take size.toNat
  if start < 0 ∨ size < 0 ∨ (body.length : Int) ≠ size then
    { err := some 1, state := old, pos := inp.pos, failed := inp.failed }
  else { err := none, state := body, pos := start + size, failed := false }

/-- Modelled from the spec: a leaf writer (not in `FormChunk.cpp`) re-serialises
the chunk as identifier, size, body and the pad byte of an odd-sized body. -/
def blobWrite (id : Nat) (body : List Byte) : List Byte :=
  be32 id ++ be32 body.length ++ body ++ (if body.length % 2 = 1 then [0] else [])

/-- Modelled from the spec: the Common chunk's compression type (the class is
not in `FormChunk.cpp`), taken as the identifier at offset 18 of the chunk body
as in the AIFC layout; 0 when the body is shorter. -/
def blobCompressionType (body : List Byte) : Nat :=
  match body.drop 18 with
  | b0 :: b1 :: b2 :: b3 :: _ => ((b0.val * 256 + b1.val) * 256 + b2.val) * 256 + b3.val
  | _ => 0

/-- Modelled from the spec: `SoundData::decrypt` is not in `FormChunk.cpp` and
the spec leaves the transform itself open, asking only for a length-preserving
transform of the payload determined by the key. This sample (exclusive or with
the key's first byte) serves to evaluate the container on concrete inputs. -/
def blobDecrypt (payload key : List Byte) : List Byte :=
  payload.map (fun b => Fin.ofNat (Nat.xor b.val (key.headD 0).val))

/-- The sample leaf chunks: state is the chunk body. -/
def blobOps : LeafOps (List Byte) (List Byte) (List Byte) (List Byte) (List Byte) where
  fvGetId := fun _ => makeId 'F' 'V' 'E' 'R'
  fvReadData := blobRead
  fvWrite := blobWrite (makeId 'F' 'V' 'E' 'R')
  abGetId := fun _ => makeId 'a' 'b' 'l' 'e'
  abReadData := blobRead
  getKey := fun body => body
  cmGetId := fun _ => makeId 'C' 'O' 'M' 'M'
  cmReadData := blobRead
  cmWrite := blobWrite (makeId 'C' 'O' 'M' 'M')
  getCompressionType := blobCompressionType
  sdGetId := fun _ => makeId 'S' 'S' 'N' 'D'
  sdReadData := blobRead
  sdWrite := blobWrite (makeId 'S' 'S' 'N' 'D')
  decrypt := blobDecrypt

/-- A leaf reader built on unchecked reads, as `input.read(buffer, n)` without a
test of the stream: it asks for the declared size, and at least for the `fixed`
bytes of its layout; it keeps what it got and returns normally, leaving the
stream failed when the stream held fewer bytes than asked for. -/
def rawRead (fixed : Nat) (inp : IStream) (_start size : Int) (_old : List Byte) :
    LeafResult (List Byte) :=
  let want := max fixed size.toNat
  let got := (inp.data.drop inp.pos.toNat).take want
  { err := none, state := got, pos := inp.pos + got.length,
    failed := decide (got.length < want) }

/-- The sample leaf chunks with unchecked readers; SoundData starts with the
eight bytes of its offset and block size. -/
def rawOps : LeafOps (List Byte) (List Byte) (List Byte) (List Byte) (List Byte) :=
  { blobOps with
    fvReadData := rawRead 0
    abReadData := rawRead 0
    cmReadData := rawRead 0
    sdReadData := rawRead 8 }

/-- A freshly constructed container over the sample leaf chunks, about to read
the given bytes from position 0. -/
def blobForm (bytes : List Byte) :
    FormChunk (List Byte) (List Byte) (List Byte) (List Byte) (List Byte) :=
  FormChunk.new [] [] [] [] { data := bytes, pos := 0, failed := false }

/-- The bytes of a four-character tag. -/
def tag (c0 c1 c2 c3 : Char) : List Byte :=
  [Fin.ofNat c0.toNat, Fin.ofNat c1.toNat, Fin.ofNat c2.toNat, Fin.ofNat c3.toNat]

/-- The sample container at the head of the walk loop, at position `pos` of the
given bytes. -/
def blobFormAt (bytes : List Byte) (pos : Int) :
    FormChunk (List Byte) (List Byte) (List Byte) (List Byte) (List Byte) :=
  FormChunk.new [] [] [] [] { data := bytes, pos := pos, failed := false }

/-- A Common chunk body whose compression type is the given tag. -/
def commBody (compression : List Byte) : List Byte :=
  List.replicate 18 0 ++ compression

/-- Scenario A: `FORM`, form type `AIFF`, Common with compression `NONE`,
SoundData payload `[1, 2, 3, 4]`. -/
def scenarioA : List Byte :=
  tag 'F' 'O' 'R' 'M' ++ be32 46 ++ tag 'A' 'I' 'F' 'F' ++
    tag 'C' 'O' 'M' 'M' ++ be32 22 ++ commBody (tag 'N' 'O' 'N' 'E') ++
    tag 'S' 'S' 'N' 'D' ++ be32 4 ++ [1, 2, 3, 4]

/-- Scenario B: the outer tag is `XYZZ`. -/
def scenarioB : List Byte :=
  tag 'X' 'Y' 'Z' 'Z' ++ be32 4 ++ tag 'A' 'I' 'F' 'F'

/-- Scenario C: a sub-chunk that declares size `-1`. -/
def scenarioC : List Byte :=
  tag 'F' 'O' 'R' 'M' ++ be32 12 ++ tag 'A' 'I' 'F' 'F' ++
    tag 'C' 'O' 'M' 'M' ++ [255, 255, 255, 255]

/-- An unknown sub-chunk `JUNK` of odd size 3 (plus its pad byte) followed by a
SoundData chunk. -/
def oddJunk : List Byte :=
  tag 'F' 'O' 'R' 'M' ++ be32 28 ++ tag 'A' 'I' 'F' 'C' ++
    tag 'J' 'U' 'N' 'K' ++ be32 3 ++ [7, 8, 9, 0] ++
    tag 'S' 'S' 'N' 'D' ++ be32 4 ++ [1, 2, 3, 4]

/-- An encrypted file: Able chunk with key `[0x0F, 0x00]`, Common with
compression `able`, SoundData payload `[0x0E, 0x0D, 0x0C, 0x0B]`. -/
def scenarioAble : List Byte :=
  tag 'F' 'O' 'R' 'M' ++ be32 56 ++ tag 'A' 'I' 'F' 'C' ++
    tag 'a' 'b' 'l' 'e' ++ be32 2 ++ [0x0F, 0x00] ++
    tag 'C' 'O' 'M' 'M' ++ be32 22 ++ commBody (tag 'a' 'b' 'l' 'e') ++
    tag 'S' 'S' 'N' 'D' ++ be32 4 ++ [0x0E, 0x0D, 0x0C, 0x0B]

/-- The bytes of `oddJunk` with another body in the unknown sub-chunk. -/
def oddJunkAlt : List Byte :=
  tag 'F' 'O' 'R' 'M' ++ be32 28 ++ tag 'A' 'I' 'F' 'C' ++
    tag 'J' 'U' 'N' 'K' ++ be32 3 ++ [0x53, 0x53, 0x4E, 0] ++
    tag 'S' 'S' 'N' 'D' ++ be32 4 ++ [1, 2, 3, 4]

/-- Scenario D: the Common chunk's compression type is `zzzz`. -/
def scenarioD : List Byte :=
  tag 'F' 'O' 'R' 'M' ++ be32 46 ++ tag 'A' 'I' 'F' 'C' ++
    tag 'C' 'O' 'M' 'M' ++ be32 22 ++ commBody (tag 'z' 'z' 'z' 'z') ++
    tag 'S' 'S' 'N' 'D' ++ be32 4 ++ [1, 2, 3, 4]

/-- A Common chunk with compression type `zzzz` followed by a SoundData chunk
whose declared size 100 reaches past the declared region. -/
def scenarioDBounds : List Byte :=
  tag 'F' 'O' 'R' 'M' ++ be32 46 ++ tag 'A' 'I' 'F' 'C' ++
    tag 'C' 'O' 'M' 'M' ++ be32 22 ++ commBody (tag 'z' 'z' 'z' 'z') ++
    tag 'S' 'S' 'N' 'D' ++ be32 100 ++ [1, 2, 3, 4]

/-- A region that ends with an odd-sized sub-chunk and no pad byte: the outer
size 15 covers the form type, the header and the three body bytes. -/
def oddTail : List Byte :=
  tag 'F' 'O' 'R' 'M' ++ be32 15 ++ tag 'A' 'I' 'F' 'C' ++
    tag 'J' 'U' 'N' 'K' ++ be32 3 ++ [7, 8, 9]

/-- A region with five bytes left after the form type (outer size 9), although
the stream holds a whole sub-chunk header there. -/
def shortRegion : List Byte :=
  tag 'F' 'O' 'R' 'M' ++ be32 9 ++ tag 'A' 'I' 'F' 'F' ++
    tag 'J' 'U' 'N' 'K' ++ be32 0

/-- A declared outer size of `-1`, followed by a SoundData chunk. -/
def negativeOuter : List Byte :=
  tag 'F' 'O' 'R' 'M' ++ [255, 255, 255, 255] ++ tag 'A' 'I' 'F' 'C' ++
    tag 'S' 'S' 'N' 'D' ++ be32 4 ++ [1, 2, 3, 4]

/-- A file cut short inside its last sub-chunk: the SoundData chunk declares 4
bytes, the declared region covers them, and the file ends after 2. -/
def truncatedSound : List Byte :=
  tag 'F' 'O' 'R' 'M' ++ be32 16 ++ tag 'A' 'I' 'F' 'C' ++
    tag 'S' 'S' 'N' 'D' ++ be32 4 ++ [1, 2]

/-- A file that ends with the header of an empty SoundData chunk; the declared
region (outer size 12) ends there too. -/
def emptySound : List Byte :=
  tag 'F' 'O' 'R' 'M' ++ be32 12 ++ tag 'A' 'I' 'F' 'C' ++
    tag 'S' 'S' 'N' 'D' ++ be32 0

/-- A container whose form type is `WAVE`. -/
def scenarioWave : List Byte :=
  tag 'F' 'O' 'R' 'M' ++ be32 4 ++ tag 'W' 'A' 'V' 'E'

/-! ## Basic facts -/

theorem readId_stream0 {s s1 : IStream} {v : Nat} (h : readId s = some (v, s1)) :
    s1 = { s with pos := s.pos + 4 } := by
  unfold readId at h
  split at h
  · simp only [Option.some.injEq, Prod.mk.injEq] at h
    exact h.2.symm
  · simp at h

/-- A primitive read succeeds only on a good stream at a non-negative
position. -/
theorem readId_good {s s1 : IStream} {v : Nat} (h : readId s = some (v, s1)) :
    s.failed = false ∧ 0 ≤ s.pos := by
  unfold readId IStream.take4 at h
  by_cases hf : s.failed = true
  · simp [hf] at h
  · by_cases hp : 0 ≤ s.pos
    · exact ⟨by simpa using hf, hp⟩
    · simp [hf, hp] at h

/-- A successful primitive read advances the stream by four and leaves it
good. -/
theorem readId_stream {s s1 : IStream} {v : Nat} (h : readId s = some (v, s1)) :
    s1 = { data := s.data, pos := s.pos + 4, failed := false } := by
  rw [readId_stream0 h, ← (readId_good h).1]

/-- A primitive read leaves the stream good. -/
theorem readId_good_out {s s1 : IStream} {v : Nat} (h : readId s = some (v, s1)) :
    s1.failed = false := by
  rw [readId_stream h]

theorem readId_failed {s : IStream} (h : s.failed = true) : readId s = none := by
  unfold readId IStream.take4
  simp [h]

theorem readInt32_stream {s s1 : IStream} {v : Int} (h : readInt32 s = some (v, s1)) :
    s1 = { data := s.data, pos := s.pos + 4, failed := false } := by
  unfold readInt32 at h
  split at h
  · rename_i u s2 hu
    simp only [Option.some.injEq, Prod.mk.injEq] at h
    rw [← h.2]
    exact readId_stream hu
  · simp at h

theorem header_pos {s in1 in2 : IStream} {id : Nat} {size : Int}
    (h1 : readId s = some (id, in1)) (h2 : readInt32 in1 = some (size, in2)) :
    in2 = { data := s.data, pos := s.pos + 8, failed := false } := by
  rw [readInt32_stream h2, readId_stream h1]
  simp only [IStream.mk.injEq, true_and, and_true]
  ring

/-- After a header has been read the stream is good, at a position of at least
eight, and `tellg` reports that position. -/
theorem header_good {s in1 in2 : IStream} {id : Nat} {size : Int}
    (h1 : readId s = some (id, in1)) (h2 : readInt32 in1 = some (size, in2)) :
    s.failed = false ∧ 0 ≤ s.pos ∧ in2.failed = false ∧ in2.tellg = in2.pos ∧ 8 ≤ in2.pos := by
  have hg := readId_good h1
  have hp := header_pos h1 h2
  have hf : in2.failed = false := by rw [hp]
  refine ⟨hg.1, hg.2, hf, ?_, ?_⟩
  · simp [IStream.tellg, hf]
  · rw [hp]; simp only; omega

theorem tellg_good {s : IStream} (h : s.failed = false) : s.tellg = s.pos := by
  simp [IStream.tellg, h]

theorem tellg_failed {s : IStream} (h : s.failed = true) : s.tellg = -1 := by
  simp [IStream.tellg, h]

theorem seekg_good {s : IStream} {p : Int} (h : s.failed = false) (hp : 0 ≤ p) :
    s.seekg p = { data := s.data, pos := p, failed := false } := by
  unfold IStream.seekg
  rw [if_neg (by simp [h]), if_neg (by omega), ← h]

theorem seekg_data (s : IStream) (p : Int) : (s.seekg p).data = s.data := by
  unfold IStream.seekg
  split_ifs <;> rfl

theorem invoke_error (ops : LeafOps FV AB CM SD K) (w : Leaf) (start size : Int)
    (fc : FormChunk FV AB CM SD K) :
    (invoke ops w start size fc).error = none ∨
      ∃ c, (invoke ops w start size fc).error = some (Err.leaf c) := by
  cases w <;> simp only [invoke, leafOutcome] <;> split <;> simp [Res.error]

theorem dispatch_error (ops : LeafOps FV AB CM SD K) (id : Nat) (start size : Int)
    (fc : FormChunk FV AB CM SD K) :
    (dispatch ops id start size fc).error = none ∨
      ∃ c, (dispatch ops id start size fc).error = some (Err.leaf c) := by
  unfold dispatch
  split_ifs
  · exact invoke_error ops _ start size fc
  · exact invoke_error ops _ start size fc
  · exact invoke_error ops _ start size fc
  · exact invoke_error ops _ start size fc
  · left; rfl

/-- What one loop iteration does once the header has been read. -/
theorem walkStep_header (ops : LeafOps FV AB CM SD K) (bound : Int)
    (fc : FormChunk FV AB CM SD K) {id : Nat} {size : Int} {in1 in2 : IStream}
    (h1 : readId fc.input = some (id, in1)) (h2 : readInt32 in1 = some (size, in2)) :
    walkStep ops bound fc =
      if size < 0 ∨ in2.pos + size > bound then
        .fail .chunkBounds
          { fc with input := in2, trace := fc.trace ++ [Event.header id in2.pos size] }
      else
        match dispatch ops id in2.pos size
            { fc with input := in2, trace := fc.trace ++ [Event.header id in2.pos size] } with
        | .fail e s => .fail e s
        | .done fc3 =>
            .done { fc3 with input := fc3.input.seekg (subChunkDataEnd in2.pos size) } := by
  unfold walkStep
  rw [h1]
  simp only
  rw [h2]
  simp only [(header_good h1 h2).2.2.2.1]

theorem walkStep_noId (ops : LeafOps FV AB CM SD K) (bound : Int)
    (fc : FormChunk FV AB CM SD K) (h1 : readId fc.input = none) :
    walkStep ops bound fc = .fail .truncatedRead fc := by
  unfold walkStep
  rw [h1]

theorem walkStep_noSize (ops : LeafOps FV AB CM SD K) (bound : Int)
    (fc : FormChunk FV AB CM SD K) {id : Nat} {in1 : IStream}
    (h1 : readId fc.input = some (id, in1)) (h2 : readInt32 in1 = none) :
    walkStep ops bound fc = .fail .truncatedRead { fc with input := in1 } := by
  unfold walkStep
  rw [h1]
  simp only
  rw [h2]

theorem subChunkDataEnd_nonneg (p : Int) {s : Int} (hs : 0 ≤ s) :
    subChunkDataEnd p s = p + s + (if s % 2 = 1 then 1 else 0) := by
  unfold subChunkDataEnd
  rw [Int.tmod_eq_emod hs (by decide)]

theorem invoke_frame (ops : LeafOps FV AB CM SD K) (w : Leaf) (start size : Int)
    (fc : FormChunk FV AB CM SD K) :
    (invoke ops w start size fc).state.id = fc.id ∧
    (invoke ops w start size fc).state.isAIFC = fc.isAIFC ∧
    (invoke ops w start size fc).state.input.data = fc.input.data ∧
    (invoke ops w start size fc).state.trace = fc.trace ++ [Event.leafRead w start size] := by
  cases w <;> simp only [invoke, leafOutcome] <;> split <;> simp [Res.state, IStream.seekg]

theorem dispatch_frame (ops : LeafOps FV AB CM SD K) (id : Nat) (start size : Int)
    (fc : FormChunk FV AB CM SD K) :
    (dispatch ops id start size fc).state.id = fc.id ∧
    (dispatch ops id start size fc).state.isAIFC = fc.isAIFC ∧
    (dispatch ops id start size fc).state.input.data = fc.input.data := by
  unfold dispatch
  split_ifs
  · exact ⟨(invoke_frame ops _ start size fc).1, (invoke_frame ops _ start size fc).2.1,
      (invoke_frame ops _ start size fc).2.2.1⟩
  · exact ⟨(invoke_frame ops _ start size fc).1, (invoke_frame ops _ start size fc).2.1,
      (invoke_frame ops _ start size fc).2.2.1⟩
  · exact ⟨(invoke_frame ops _ start size fc).1, (invoke_frame ops _ start size fc).2.1,
      (invoke_frame ops _ start size fc).2.2.1⟩
  · exact ⟨(invoke_frame ops _ start size fc).1, (invoke_frame ops _ start size fc).2.1,
      (invoke_frame ops _ start size fc).2.2.1⟩
  · exact ⟨rfl, rfl, rfl⟩

theorem seekg_ok {s : IStream} {p : Int} (h : (s.seekg p).failed = false) :
    s.failed = false ∧ 0 ≤ p ∧ (s.seekg p).pos = p := by
  unfold IStream.seekg at h ⊢
  by_cases hf : s.failed = true
  · rw [if_pos hf] at h
    rw [hf] at h
    cases h
  · by_cases hp : p < 0
    · rw [if_neg hf, if_pos hp] at h
      cases h
    · rw [if_neg hf, if_neg hp]
      exact ⟨by simpa using hf, by omega, rfl⟩

/-- A loop iteration never touches the container's identifier, `isAIFC` or the
content of the stream. -/
theorem walkStep_frame (ops : LeafOps FV AB CM SD K) (bound : Int)
    (fc : FormChunk FV AB CM SD K) :
    (walkStep ops bound fc).state.id = fc.id ∧
    (walkStep ops bound fc).state.isAIFC = fc.isAIFC ∧
    (walkStep ops bound fc).state.input.data = fc.input.data := by
  cases h1 : readId fc.input with
  | none => simp [walkStep_noId ops bound fc h1, Res.state]
  | some r1 =>
    obtain ⟨id, in1⟩ := r1
    have e1 := readId_stream h1
    cases h2 : readInt32 in1 with
    | none => simp [walkStep_noSize ops bound fc h1 h2, Res.state, e1]
    | some r2 =>
      obtain ⟨size, in2⟩ := r2
      have e2 := header_pos h1 h2
      rw [walkStep_header ops bound fc h1 h2]
      split_ifs
      · simp [Res.state, e2]
      · have hd := dispatch_frame ops id in2.pos size
          { fc with input := in2, trace := fc.trace ++ [Event.header id in2.pos size] }
        split
        · rename_i e s heq
          rw [heq] at hd
          simpa [Res.state, e2] using hd
        · rename_i fc3 heq
          rw [heq] at hd
          simpa [Res.state, e2, seekg_data] using hd

/-- The errors a loop iteration can raise. -/
theorem walkStep_error (ops : LeafOps FV AB CM SD K) (bound : Int)
    (fc : FormChunk FV AB CM SD K) (e : Err)
    (h : (walkStep ops bound fc).error = some e) :
    e = .truncatedRead ∨ e = .chunkBounds ∨ ∃ c, e = .leaf c := by
  cases h1 : readId fc.input with
  | none =>
    simp only [walkStep_noId ops bound fc h1, Res.error, Option.some.injEq] at h
    exact Or.inl h.symm
  | some r1 =>
    obtain ⟨id, in1⟩ := r1
    cases h2 : readInt32 in1 with
    | none =>
      simp only [walkStep_noSize ops bound fc h1 h2, Res.error, Option.some.injEq] at h
      exact Or.inl h.symm
    | some r2 =>
      obtain ⟨size, in2⟩ := r2
      rw [walkStep_header ops bound fc h1 h2] at h
      split_ifs at h
      · simp only [Res.error, Option.some.injEq] at h
        exact Or.inr (Or.inl h.symm)
      · have hd := dispatch_error ops id in2.pos size
          { fc with input := in2, trace := fc.trace ++ [Event.header id in2.pos size] }
        split at h
        · rename_i e1 s heq
          rw [heq] at hd
          simp only [Res.error, Option.some.injEq] at h hd
          subst h
          rcases hd with hd | ⟨c, hd⟩
          · cases hd
          · exact Or.inr (Or.inr ⟨c, hd⟩)
        · simp [Res.error] at h

/-- A completed loop iteration started on a good stream with the whole header
before the bound; when it leaves the stream good, it has moved it forward by at
least the eight bytes of the header. -/
theorem walkStep_progress (ops : LeafOps FV AB CM SD K) (bound : Int)
    (fc fc1 : FormChunk FV AB CM SD K) (h : walkStep ops bound fc = .done fc1) :
    fc.input.failed = false ∧ 0 ≤ fc.input.pos ∧ fc.input.pos + 8 ≤ bound ∧
      (fc1.input.failed = false → fc.input.pos + 8 ≤ fc1.input.pos) := by
  cases h1 : readId fc.input with
  | none => simp [walkStep_noId ops bound fc h1] at h
  | some r1 =>
    obtain ⟨id, in1⟩ := r1
    cases h2 : readInt32 in1 with
    | none => simp [walkStep_noSize ops bound fc h1 h2] at h
    | some r2 =>
      obtain ⟨size, in2⟩ := r2
      have e2 := header_pos h1 h2
      have hg := header_good h1 h2
      have hp2 : in2.pos = fc.input.pos + 8 := by rw [e2]
      rw [walkStep_header ops bound fc h1 h2] at h
      split_ifs at h with hc
      split at h
      · cases h
      · simp only [Res.done.injEq] at h
        subst h
        have hs : 0 ≤ size := by omega
        refine ⟨hg.1, hg.2.1, by omega, ?_⟩
        intro hf
        have hk := seekg_ok hf
        simp only at hk ⊢
        rw [hk.2.2, subChunkDataEnd_nonneg _ hs]
        split_ifs <;> omega

/-- The walk never touches the container's identifier, `isAIFC` or the content
of the stream. -/
theorem walk_frame (ops : LeafOps FV AB CM SD K) (bound : Int) (n : Nat) :
    ∀ fc : FormChunk FV AB CM SD K,
      (walk ops bound n fc).state.id = fc.id ∧
      (walk ops bound n fc).state.isAIFC = fc.isAIFC ∧
      (walk ops bound n fc).state.input.data = fc.input.data := by
  induction n with
  | zero =>
    intro fc
    unfold walk
    split_ifs <;> simp [Res.state]
  | succ n ih =>
    intro fc
    unfold walk
    split_ifs
    · have hf := walkStep_frame ops bound fc
      split
      · rename_i e s heq
        rw [heq] at hf
        simpa [Res.state] using hf
      · rename_i fc1 heq
        rw [heq] at hf
        simp only [Res.state] at hf
        have := ih fc1
        exact ⟨this.1.trans hf.1, this.2.1.trans hf.2.1, this.2.2.trans hf.2.2⟩
    · simp [Res.state]

/-- The errors the walk can end with. -/
theorem walk_error (ops : LeafOps FV AB CM SD K) (bound : Int) (n : Nat) :
    ∀ (fc : FormChunk FV AB CM SD K) (e : Err), (walk ops bound n fc).error = some e →
      e = .truncatedRead ∨ e = .chunkBounds ∨ (∃ c, e = .leaf c) ∨ e = .fuel := by
  induction n with
  | zero =>
    intro fc e h
    unfold walk at h
    split_ifs at h
    · simp only [Res.error, Option.some.injEq] at h
      exact Or.inr (Or.inr (Or.inr h.symm))
    · simp [Res.error] at h
  | succ n ih =>
    intro fc e h
    unfold walk at h
    split_ifs at h
    · split at h
      · rename_i e1 s heq
        simp only [Res.error, Option.some.injEq] at h
        subst h
        have := walkStep_error ops bound fc e1 (by rw [heq]; rfl)
        rcases this with h | h | h
        · exact Or.inl h
        · exact Or.inr (Or.inl h)
        · exact Or.inr (Or.inr (Or.inl h))
      · exact ih _ e h
    · simp [Res.error] at h

/-- Once the loop condition is false the loop exits at once. -/
theorem walk_exit_now (ops : LeafOps FV AB CM SD K) (bound : Int) (n : Nat)
    (fc : FormChunk FV AB CM SD K) (h : ¬ fc.input.tellg < bound) :
    walk ops bound n fc = .done fc := by
  cases n <;> simp [walk, h]

/-- On a failed stream an iteration that is entered throws at its first
primitive read, leaving the state as it was. -/
theorem walk_failed (ops : LeafOps FV AB CM SD K) (bound : Int) (n : Nat)
    (fc : FormChunk FV AB CM SD K) (hf : fc.input.failed = true) (hb : -1 < bound) :
    walk ops bound (n + 1) fc = .fail .truncatedRead fc := by
  unfold walk
  rw [if_pos (by rw [tellg_failed hf]; exact hb), walkStep_noId ops bound fc (readId_failed hf)]

/-- The iteration budget is never exhausted when it is at least the distance
from a good stream's position to the bound, and at least one on a failed
stream. -/
theorem walk_fuel_enough (ops : LeafOps FV AB CM SD K) (bound : Int) (n : Nat) :
    ∀ fc : FormChunk FV AB CM SD K,
      (fc.input.failed = true → 1 ≤ n) →
      (fc.input.failed = false → bound - fc.input.pos ≤ n) →
      (walk ops bound n fc).error ≠ some .fuel := by
  induction n with
  | zero =>
    intro fc hfl hn
    cases hfd : fc.input.failed with
    | true => have := hfl hfd; omega
    | false =>
      have := hn hfd
      have hlt : ¬ fc.input.tellg < bound := by
        rw [tellg_good hfd]
        simp only [Nat.cast_zero] at this
        omega
      rw [walk_exit_now ops bound 0 fc hlt]
      simp [Res.error]
  | succ n ih =>
    intro fc hfl hn
    unfold walk
    split_ifs
    · cases hw : walkStep ops bound fc with
      | fail e st =>
        intro hcontra
        simp only [Res.error, Option.some.injEq] at hcontra
        subst hcontra
        have := walkStep_error ops bound fc .fuel (by rw [hw]; rfl)
        simp at this
      | done fc1 =>
        obtain ⟨hg, _, hfit, hadv⟩ := walkStep_progress ops bound fc fc1 hw
        have hn1 := hn hg
        push_cast at hn1
        apply ih
        · intro _; omega
        · intro hf1
          have := hadv hf1
          omega
    · simp [Res.error]

/-- `readData` never runs out of iteration budget: the model of the loop is
total. -/
theorem readData_fuel (ops : LeafOps FV AB CM SD K) (fc : FormChunk FV AB CM SD K)
    (dataStart dataSize : Int) :
    (readData ops fc dataStart dataSize).error ≠ some .fuel := by
  unfold readData
  split
  · simp [Res.error]
  · rename_i formType in1 _
    simp only
    split_ifs
    · simp [Res.error]
    · have hw := walk_fuel_enough ops (dataStart + dataSize)
        (walkFuel (dataStart + dataSize)
          ({ fc with input := in1, isAIFC := decide (formType = makeId 'A' 'I' 'F' 'C') } :
            FormChunk FV AB CM SD K))
        { fc with input := in1, isAIFC := decide (formType = makeId 'A' 'I' 'F' 'C') }
        (by intro hf; simp only at hf; rw [(readId_good_out ‹_›)] at hf; cases hf)
        (by
          intro hf
          unfold walkFuel
          rw [tellg_good hf]
          exact Int.self_le_toNat _)
      split
      · rename_i e s heq
        rw [heq] at hw
        simpa [Res.error] using hw
      · unfold finish
        split_ifs <;> simp [Res.error]

/-- `readData` once the form type has been read. -/
theorem readData_formType (ops : LeafOps FV AB CM SD K) (fc : FormChunk FV AB CM SD K)
    (dataStart dataSize : Int) {ft : Nat} {in1 : IStream}
    (h1 : readId fc.input = some (ft, in1)) :
    readData ops fc dataStart dataSize =
      if ft ≠ makeId 'A' 'I' 'F' 'C' ∧ ft ≠ makeId 'A' 'I' 'F' 'F' then
        .fail .unsupportedFormType { fc with input := in1 }
      else
        match walk ops (dataStart + dataSize)
            (walkFuel (dataStart + dataSize)
              ({ fc with input := in1, isAIFC := decide (ft = makeId 'A' 'I' 'F' 'C') } :
                FormChunk FV AB CM SD K))
            { fc with input := in1, isAIFC := decide (ft = makeId 'A' 'I' 'F' 'C') } with
        | .fail e s => .fail e s
        | .done fc3 => finish ops fc3 := by
  unfold readData
  rw [h1]
  simp only
  by_cases hc : ft ≠ makeId 'A' 'I' 'F' 'C' ∧ ft ≠ makeId 'A' 'I' 'F' 'F'
  · rw [if_pos hc, if_pos]
    simp [hc.1, hc.2]
  · rw [if_neg hc, if_neg]
    simp only [ne_eq, not_and, not_not] at hc
    simp only [Bool.and_eq_true, Bool.not_eq_true', decide_eq_false_iff_not, not_and, not_not]
    exact hc

theorem finish_frame (ops : LeafOps FV AB CM SD K) (fc : FormChunk FV AB CM SD K) :
    (finish ops fc).state.id = fc.id ∧
    (finish ops fc).state.isAIFC = fc.isAIFC ∧
    (finish ops fc).state.input = fc.input ∧
    (finish ops fc).state.formatVersionChunk = fc.formatVersionChunk ∧
    (finish ops fc).state.ableChunk = fc.ableChunk ∧
    (finish ops fc).state.commonChunk = fc.commonChunk := by
  unfold finish
  split_ifs <;> simp [Res.state]

theorem finish_error (ops : LeafOps FV AB CM SD K) (fc : FormChunk FV AB CM SD K) (e : Err)
    (h : (finish ops fc).error = some e) : e = .unsupportedCompression := by
  unfold finish at h
  split_ifs at h <;> simp [Res.error] at h
  exact h.symm

/-- The errors `readData` can raise. -/
theorem readData_error (ops : LeafOps FV AB CM SD K) (fc : FormChunk FV AB CM SD K)
    (dataStart dataSize : Int) (e : Err)
    (h : (readData ops fc dataStart dataSize).error = some e) :
    e = .truncatedRead ∨ e = .unsupportedFormType ∨ e = .chunkBounds ∨ (∃ c, e = .leaf c) ∨
      e = .unsupportedCompression := by
  have hfuel := readData_fuel ops fc dataStart dataSize
  cases h1 : readId fc.input with
  | none =>
    simp only [readData, h1, Res.error, Option.some.injEq] at h
    exact Or.inl h.symm
  | some r1 =>
    obtain ⟨ft, in1⟩ := r1
    rw [readData_formType ops fc dataStart dataSize h1] at h hfuel
    split_ifs at h hfuel
    · simp only [Res.error, Option.some.injEq] at h
      exact Or.inr (Or.inl h.symm)
    · split at h
      · rename_i e1 s heq
        rw [heq] at hfuel
        simp only [Res.error, Option.some.injEq] at h
        subst h
        have hw := walk_error ops _ _ _ e1 (by rw [heq]; rfl)
        rcases hw with hw | hw | hw | hw
        · exact Or.inl hw
        · exact Or.inr (Or.inr (Or.inl hw))
        · exact Or.inr (Or.inr (Or.inr (Or.inl hw)))
        · subst hw
          simp [Res.error] at hfuel
      · exact Or.inr (Or.inr (Or.inr (Or.inr (finish_error ops _ e h))))

theorem leafId_header (ops : LeafOps FV AB CM SD K) (fc : FormChunk FV AB CM SD K)
    (inp : IStream) (tr : List (Event K)) (w : Leaf) :
    leafId ops { fc with input := inp, trace := tr } w = leafId ops fc w := by
  cases w <;> rfl

/-- With pairwise distinct leaf identifiers, the `if / else if` chain calls the
leaf whose identifier matches. -/
theorem dispatch_leaf (ops : LeafOps FV AB CM SD K) (fc : FormChunk FV AB CM SD K)
    (id : Nat) (start size : Int) (w : Leaf)
    (hdist : ∀ a b : Leaf, a ≠ b → leafId ops fc a ≠ leafId ops fc b)
    (hid : id = leafId ops fc w) :
    dispatch ops id start size fc = invoke ops w start size fc := by
  have h12 := hdist .formatVersion .able (by decide)
  have h13 := hdist .formatVersion .common (by decide)
  have h14 := hdist .formatVersion .soundData (by decide)
  have h23 := hdist .able .common (by decide)
  have h24 := hdist .able .soundData (by decide)
  have h34 := hdist .common .soundData (by decide)
  simp only [leafId] at h12 h13 h14 h23 h24 h34
  subst hid
  unfold dispatch
  cases w <;>
    simp [leafId, Ne.symm h12, Ne.symm h13, Ne.symm h14, Ne.symm h23, Ne.symm h24, Ne.symm h34]

/-- An identifier that matches no leaf is skipped. -/
theorem dispatch_unknown (ops : LeafOps FV AB CM SD K) (fc : FormChunk FV AB CM SD K)
    (id : Nat) (start size : Int) (hunk : ∀ w : Leaf, id ≠ leafId ops fc w) :
    dispatch ops id start size fc = .done fc := by
  have h1 := hunk .formatVersion
  have h2 := hunk .able
  have h3 := hunk .common
  have h4 := hunk .soundData
  simp only [leafId] at h1 h2 h3 h4
  unfold dispatch
  rw [if_neg h1, if_neg h2, if_neg h3, if_neg h4]

/-- The leaf chunks after a leaf call: the called leaf holds what its reader
returned, the others are untouched. -/
theorem invoke_leaves (ops : LeafOps FV AB CM SD K) (w : Leaf) (start size : Int)
    (fc : FormChunk FV AB CM SD K) :
    (invoke ops w start size fc).state.formatVersionChunk =
      (if w = .formatVersion then
        (ops.fvReadData fc.input start size fc.formatVersionChunk).state
        else fc.formatVersionChunk) ∧
    (invoke ops w start size fc).state.ableChunk =
      (if w = .able then (ops.abReadData fc.input start size fc.ableChunk).state
        else fc.ableChunk) ∧
    (invoke ops w start size fc).state.commonChunk =
      (if w = .common then (ops.cmReadData fc.input start size fc.commonChunk).state
        else fc.commonChunk) ∧
    (invoke ops w start size fc).state.soundDataChunk =
      (if w = .soundData then (ops.sdReadData fc.input start size fc.soundDataChunk).state
        else fc.soundDataChunk) := by
  cases w <;> simp only [invoke, leafOutcome] <;> split <;> simp [Res.state]

/-- The seek at the end of an iteration changes the stream position only. -/
theorem seek_state (r : Res (FormChunk FV AB CM SD K)) (q : Int) :
    (match r with
      | .fail e s => Res.fail e s
      | .done fc3 => Res.done { fc3 with input := fc3.input.seekg q }).state.trace
        = r.state.trace ∧
    (match r with
      | .fail e s => Res.fail e s
      | .done fc3 => Res.done { fc3 with input := fc3.input.seekg q }).state.formatVersionChunk
        = r.state.formatVersionChunk ∧
    (match r with
      | .fail e s => Res.fail e s
      | .done fc3 => Res.done { fc3 with input := fc3.input.seekg q }).state.ableChunk
        = r.state.ableChunk ∧
    (match r with
      | .fail e s => Res.fail e s
      | .done fc3 => Res.done { fc3 with input := fc3.input.seekg q }).state.commonChunk
        = r.state.commonChunk ∧
    (match r with
      | .fail e s => Res.fail e s
      | .done fc3 => Res.done { fc3 with input := fc3.input.seekg q }).state.soundDataChunk
        = r.state.soundDataChunk := by
  cases r <;> simp [Res.state]

theorem headersOf_append (a b : List (Event K)) :
    headersOf (a ++ b) = headersOf a ++ headersOf b := by
  induction a with
  | nil => rfl
  | cons x t ih => cases x <;> simp [headersOf, ih]

theorem dispatch_headers (ops : LeafOps FV AB CM SD K) (id : Nat) (start size : Int)
    (fc : FormChunk FV AB CM SD K) :
    headersOf (dispatch ops id start size fc).state.trace = headersOf fc.trace := by
  unfold dispatch
  split_ifs
  · rw [(invoke_frame ops _ start size fc).2.2.2, headersOf_append]; simp [headersOf]
  · rw [(invoke_frame ops _ start size fc).2.2.2, headersOf_append]; simp [headersOf]
  · rw [(invoke_frame ops _ start size fc).2.2.2, headersOf_append]; simp [headersOf]
  · rw [(invoke_frame ops _ start size fc).2.2.2, headersOf_append]; simp [headersOf]
  · rfl

/-- After its header has been read, an iteration leaves exactly one more header
in the trace, in whatever way it ends. -/
theorem walkStep_headers (ops : LeafOps FV AB CM SD K) (bound : Int)
    (fc : FormChunk FV AB CM SD K) {id : Nat} {size : Int} {in1 in2 : IStream}
    (h1 : readId fc.input = some (id, in1)) (h2 : readInt32 in1 = some (size, in2)) :
    headersOf (walkStep ops bound fc).state.trace =
      headersOf fc.trace ++ [(id, in2.pos, size)] := by
  rw [walkStep_header ops bound fc h1 h2]
  split_ifs
  · simp [Res.state, headersOf_append, headersOf]
  · rw [(seek_state _ _).1, dispatch_headers]
    simp [headersOf_append, headersOf]

/-- On a failed stream with the bound above `-1` the walk does not complete and
changes nothing. -/
theorem walk_failed_any (ops : LeafOps FV AB CM SD K) (bound : Int) (n : Nat)
    (fc : FormChunk FV AB CM SD K) (hf : fc.input.failed = true) (hb : -1 < bound) :
    (walk ops bound n fc).state = fc ∧ (walk ops bound n fc).error ≠ none := by
  cases n with
  | zero =>
    unfold walk
    rw [if_pos (by rw [tellg_failed hf]; exact hb)]
    simp [Res.state, Res.error]
  | succ n =>
    rw [walk_failed ops bound n fc hf hb]
    simp [Res.state, Res.error]

/-- The headers a walk reads are an initial part of the scan of its stream, and
all of it when the walk completes. -/
theorem walk_headers (ops : LeafOps FV AB CM SD K) (bound : Int) (n : Nat) :
    ∀ fc : FormChunk FV AB CM SD K, fc.input.failed = false → ∃ L,
      headersOf (walk ops bound n fc).state.trace = headersOf fc.trace ++ L ∧
      L <+: scanHeaders fc.input.data bound n fc.input.pos ∧
      ((walk ops bound n fc).error = none →
        L = scanHeaders fc.input.data bound n fc.input.pos) := by
  induction n with
  | zero =>
    intro fc _
    refine ⟨[], ?_, ?_, ?_⟩
    · unfold walk; split_ifs <;> simp [Res.state]
    · simp [scanHeaders]
    · intro _; simp [scanHeaders]
  | succ n ih =>
    intro fc hgood
    have htell := tellg_good hgood
    by_cases hlt : fc.input.pos < bound
    swap
    · refine ⟨[], ?_, ?_, ?_⟩
      · unfold walk; simp [htell, hlt, Res.state]
      · simp
      · intro _; simp [scanHeaders, hlt]
    have hlt2 : fc.input.tellg < bound := by rw [htell]; exact hlt
    cases h1 : readId fc.input with
    | none =>
      refine ⟨[], ?_, by simp, ?_⟩
      · unfold walk
        simp [hlt2, walkStep_noId ops bound fc h1, Res.state]
      · unfold walk
        simp [hlt2, walkStep_noId ops bound fc h1, Res.error]
    | some r1 =>
      obtain ⟨id, in1⟩ := r1
      cases h2 : readInt32 in1 with
      | none =>
        refine ⟨[], ?_, by simp, ?_⟩
        · unfold walk
          simp [hlt2, walkStep_noSize ops bound fc h1 h2, Res.state]
        · unfold walk
          simp [hlt2, walkStep_noSize ops bound fc h1 h2, Res.error]
      | some r2 =>
        obtain ⟨size, in2⟩ := r2
        have hscan : scanHeaders fc.input.data bound (n + 1) fc.input.pos =
            (id, in2.pos, size) ::
              (if size < 0 ∨ in2.pos + size > bound then []
               else scanHeaders fc.input.data bound n (subChunkDataEnd in2.pos size)) := by
          have hin : ({ data := fc.input.data, pos := fc.input.pos, failed := false } : IStream)
              = fc.input := by rw [← hgood]
          simp only [scanHeaders, if_pos hlt, hin, h1, h2]
        have hh := walkStep_headers ops bound fc h1 h2
        have hframe := walkStep_frame ops bound fc
        have hstep := walkStep_header ops bound fc h1 h2
        by_cases hc : size < 0 ∨ in2.pos + size > bound
        · rw [if_pos hc] at hstep
          refine ⟨[(id, in2.pos, size)], ?_, ?_, ?_⟩
          · unfold walk
            rw [if_pos hlt2, hstep]
            rw [hstep] at hh
            exact hh
          · rw [hscan, if_pos hc]
          · unfold walk
            rw [if_pos hlt2, hstep]
            simp [Res.error]
        · rw [if_neg hc] at hscan
          cases hw : walkStep ops bound fc with
          | fail e st =>
            rw [hw] at hh
            refine ⟨[(id, in2.pos, size)], ?_, ?_, ?_⟩
            · unfold walk
              rw [if_pos hlt2, hw]
              exact hh
            · rw [hscan]
              exact (List.prefix_cons_inj _).mpr List.nil_prefix
            · unfold walk
              rw [if_pos hlt2, hw]
              simp [Res.error]
          | done fc1 =>
            rw [hw] at hh hframe
            simp only [Res.state] at hh hframe
            cases hf1 : fc1.input.failed with
            | true =>
              obtain ⟨_, hp0, hfit, _⟩ := walkStep_progress ops bound fc fc1 hw
              have hfa := walk_failed_any ops bound n fc1 hf1 (by omega)
              refine ⟨[(id, in2.pos, size)], ?_, ?_, ?_⟩
              · unfold walk
                rw [if_pos hlt2, hw]
                simp only
                rw [hfa.1]
                exact hh
              · rw [hscan]
                exact (List.prefix_cons_inj _).mpr List.nil_prefix
              · unfold walk
                rw [if_pos hlt2, hw]
                simp only
                intro he
                exact absurd he hfa.2
            | false =>
              have hpos : fc1.input.pos = subChunkDataEnd in2.pos size := by
                rw [hstep, if_neg hc] at hw
                split at hw
                · cases hw
                · simp only [Res.done.injEq] at hw
                  rw [← hw] at hf1 ⊢
                  exact (seekg_ok hf1).2.2
              obtain ⟨L, hL1, hL2, hL3⟩ := ih fc1 hf1
              rw [hframe.2.2, hpos] at hL2 hL3
              refine ⟨(id, in2.pos, size) :: L, ?_, ?_, ?_⟩
              · unfold walk
                rw [if_pos hlt2, hw]
                simp only
                rw [hL1, hh]
                simp
              · rw [hscan]
                exact (List.prefix_cons_inj _).mpr hL2
              · unfold walk
                rw [if_pos hlt2, hw]
                simp only
                intro he
                rw [hscan, hL3 he]

theorem first4_congr (l1 l2 : List Byte) (h : ∀ k, k < 4 → l1[k]? = l2[k]?) :
    first4 l1 = first4 l2 := by
  have h0 := h 0 (by omega)
  have h1 := h 1 (by omega)
  have h2 := h 2 (by omega)
  have h3 := h 3 (by omega)
  clear h
  rcases l1 with _ | ⟨a0, _ | ⟨a1, _ | ⟨a2, _ | ⟨a3, t⟩⟩⟩⟩ <;>
    rcases l2 with _ | ⟨b0, _ | ⟨b1, _ | ⟨b2, _ | ⟨b3, u⟩⟩⟩⟩ <;> simp_all [first4]

/-- Reading four bytes depends only on the four bytes at the position. -/
theorem take4_congr (d1 d2 : List Byte) (pos : Int)
    (h : ∀ i : Nat, pos ≤ (i : Int) → (i : Int) < pos + 4 → d2[i]? = d1[i]?) :
    IStream.take4 { data := d2, pos := pos, failed := false } = IStream.take4 { data := d1, pos := pos, failed := false } := by
  unfold IStream.take4
  by_cases hp : 0 ≤ pos
  · simp only [hp, if_true]
    apply first4_congr
    intro k hk
    rw [List.getElem?_drop, List.getElem?_drop]
    apply h <;> omega
  · simp only [hp, if_false]

theorem readId_congr (d1 d2 : List Byte) (pos : Int)
    (h : ∀ i : Nat, pos ≤ (i : Int) → (i : Int) < pos + 4 → d2[i]? = d1[i]?) :
    readId { data := d2, pos := pos, failed := false } =
      (readId { data := d1, pos := pos, failed := false }).map
        (fun r => (r.1, ({ data := d2, pos := r.2.pos, failed := false } : IStream))) := by
  unfold readId
  rw [take4_congr d1 d2 pos h]
  cases IStream.take4 { data := d1, pos := pos, failed := false } with
  | none => rfl
  | some q => rfl

theorem readInt32_congr (d1 d2 : List Byte) (pos : Int)
    (h : ∀ i : Nat, pos ≤ (i : Int) → (i : Int) < pos + 4 → d2[i]? = d1[i]?) :
    readInt32 { data := d2, pos := pos, failed := false } =
      (readInt32 { data := d1, pos := pos, failed := false }).map
        (fun r => (r.1, ({ data := d2, pos := r.2.pos, failed := false } : IStream))) := by
  unfold readInt32
  rw [readId_congr d1 d2 pos h]
  cases readId { data := d1, pos := pos, failed := false } with
  | none => rfl
  | some q => rfl

/-- The scan from a position depends only on the bytes from that position on. -/
theorem scanHeaders_congr (d1 d2 : List Byte) (bound lo : Int)
    (h : ∀ i : Nat, lo ≤ (i : Int) → d2[i]? = d1[i]?) (n : Nat) :
    ∀ pos : Int, lo ≤ pos → scanHeaders d2 bound n pos = scanHeaders d1 bound n pos := by
  induction n with
  | zero => intro pos _; rfl
  | succ n ih =>
    intro pos hpos
    unfold scanHeaders
    by_cases hlt : pos < bound
    swap
    · simp only [hlt, if_false]
    simp only [hlt, if_true]
    rw [readId_congr d1 d2 pos (fun i hi _ => h i (by omega))]
    cases h1 : readId { data := d1, pos := pos, failed := false } with
    | none => rfl
    | some r1 =>
      obtain ⟨id, in1⟩ := r1
      have e1 := readId_stream h1
      simp only [Option.map_some']
      subst e1
      simp only
      rw [readInt32_congr d1 d2 (pos + 4) (fun i hi _ => h i (by omega))]
      cases h2 : readInt32 { data := d1, pos := pos + 4, failed := false } with
      | none => rfl
      | some r2 =>
        obtain ⟨size, in2⟩ := r2
        have e2 := readInt32_stream h2
        simp only [Option.map_some']
        subst e2
        simp only
        by_cases hc : size < 0 ∨ pos + 4 + 4 + size > bound
        · simp only [hc, if_true]
        · simp only [hc, if_false]
          have hs : 0 ≤ size := by omega
          rw [ih (subChunkDataEnd (pos + 4 + 4) size)
            (by rw [subChunkDataEnd_nonneg _ hs]; split_ifs <;> omega)]

/-- A walk that starts on a good stream and completes leaves the stream good,
at or past the bound. -/
theorem walk_done_pos (ops : LeafOps FV AB CM SD K) (bound : Int) (n : Nat) :
    ∀ fc fc1 : FormChunk FV AB CM SD K, fc.input.failed = false →
      walk ops bound n fc = .done fc1 →
      fc1.input.failed = false ∧ bound ≤ fc1.input.pos := by
  induction n with
  | zero =>
    intro fc fc1 hg h
    unfold walk at h
    rw [tellg_good hg] at h
    split_ifs at h with hlt
    simp only [Res.done.injEq] at h
    subst h
    exact ⟨hg, by omega⟩
  | succ n ih =>
    intro fc fc1 hg h
    unfold walk at h
    rw [tellg_good hg] at h
    split_ifs at h with hlt
    · cases hw : walkStep ops bound fc with
      | fail e st => rw [hw] at h; cases h
      | done fc2 =>
        rw [hw] at h
        simp only at h
        obtain ⟨_, hp0, hfit, _⟩ := walkStep_progress ops bound fc fc2 hw
        cases hf2 : fc2.input.failed with
        | true =>
          have := (walk_failed_any ops bound n fc2 hf2 (by omega)).2
          rw [h] at this
          simp [Res.error] at this
        | false => exact ih fc2 fc1 hf2 h
    · simp only [Res.done.injEq] at h
      subst h
      exact ⟨hg, by omega⟩

/-- After an accepted form type and a completed walk, `readData` is the final
decision taken in the state the walk ended in. -/
theorem readData_after_walk (ops : LeafOps FV AB CM SD K) (fc fc3 : FormChunk FV AB CM SD K)
    (dataStart dataSize : Int) (ft : Nat) (in1 : IStream)
    (h1 : readId fc.input = some (ft, in1))
    (hft : ft = makeId 'A' 'I' 'F' 'C' ∨ ft = makeId 'A' 'I' 'F' 'F')
    (hw : walk ops (dataStart + dataSize)
        (walkFuel (dataStart + dataSize)
          ({ fc with input := in1, isAIFC := decide (ft = makeId 'A' 'I' 'F' 'C') } :
            FormChunk FV AB CM SD K))
        { fc with input := in1, isAIFC := decide (ft = makeId 'A' 'I' 'F' 'C') } = .done fc3) :
    readData ops fc dataStart dataSize = finish ops fc3 := by
  have hne : ¬ (ft ≠ makeId 'A' 'I' 'F' 'C' ∧ ft ≠ makeId 'A' 'I' 'F' 'F') := by
    rcases hft with h | h <;> simp [h]
  rw [readData_formType ops fc dataStart dataSize h1, if_neg hne, hw]

/-- What a completed iteration has done: on a good stream it accepted a header
with a non-negative size that fits the bound; if it left the stream good, the
stream is at the padded end. -/
theorem walkStep_done_spec (ops : LeafOps FV AB CM SD K) (bound : Int)
    (fc fc1 : FormChunk FV AB CM SD K) (h : walkStep ops bound fc = .done fc1) :
    ∃ (id : Nat) (s : Int), fc.input.failed = false ∧ 0 ≤ fc.input.pos ∧
      0 ≤ s ∧ fc.input.pos + 8 + s ≤ bound ∧
      (fc1.input.failed = false →
        fc1.input.pos = fc.input.pos + 8 + s + (if s % 2 = 1 then 1 else 0)) ∧
      headersOf fc1.trace = headersOf fc.trace ++ [(id, fc.input.pos + 8, s)] := by
  cases h1 : readId fc.input with
  | none => simp [walkStep_noId ops bound fc h1] at h
  | some r1 =>
    obtain ⟨id, in1⟩ := r1
    cases h2 : readInt32 in1 with
    | none => simp [walkStep_noSize ops bound fc h1 h2] at h
    | some r2 =>
      obtain ⟨size, in2⟩ := r2
      have e2 := header_pos h1 h2
      have hg := header_good h1 h2
      have hh := walkStep_headers ops bound fc h1 h2
      rw [h] at hh
      simp only [Res.state] at hh
      rw [walkStep_header ops bound fc h1 h2] at h
      split_ifs at h with hc
      split at h
      · cases h
      · simp only [Res.done.injEq] at h
        have hs : 0 ≤ size := by omega
        have hpos : in2.pos = fc.input.pos + 8 := by rw [e2]
        refine ⟨id, size, hg.1, hg.2.1, hs, by omega, ?_, by rw [hh, hpos]⟩
        rw [← h]
        intro hf
        have hk := seekg_ok hf
        simp only at hk ⊢
        rw [hk.2.2, subChunkDataEnd_nonneg _ hs, hpos]

/-- The position at which a completed walk exits, when it started on a good
stream inside the region: the bound, or one byte past it after an odd-sized last
sub-chunk that ends exactly at the bound. -/
theorem walk_exit (ops : LeafOps FV AB CM SD K) (bound : Int) (n : Nat) :
    ∀ fc fc1 : FormChunk FV AB CM SD K, fc.input.failed = false →
      fc.input.pos ≤ bound →
      walk ops bound n fc = .done fc1 →
      (fc1.input.pos = bound ∨ fc1.input.pos = bound + 1) ∧
      (fc1.input.pos = bound + 1 →
        ∃ (id : Nat) (p s : Int), (headersOf fc1.trace).getLast? = some (id, p, s) ∧
          0 ≤ s ∧ s % 2 = 1 ∧ p + s = bound) := by
  induction n with
  | zero =>
    intro fc fc1 hg hle h
    unfold walk at h
    rw [tellg_good hg] at h
    split_ifs at h with hlt
    simp only [Res.done.injEq] at h
    subst h
    exact ⟨Or.inl (by omega), fun hc => by omega⟩
  | succ n ih =>
    intro fc fc1 hg hle h
    unfold walk at h
    rw [tellg_good hg] at h
    split_ifs at h with hlt
    · cases hw : walkStep ops bound fc with
      | fail e st => rw [hw] at h; cases h
      | done fc2 =>
        rw [hw] at h
        simp only at h
        obtain ⟨id, s, _, hp0, hs, hfit, hpos, hhead⟩ := walkStep_done_spec ops bound fc fc2 hw
        cases hf2 : fc2.input.failed with
        | true =>
          have := (walk_failed_any ops bound n fc2 hf2 (by omega)).2
          rw [h] at this
          simp [Res.error] at this
        | false =>
          have hpos := hpos hf2
          by_cases hin : fc2.input.pos ≤ bound
          · exact ih fc2 fc1 hf2 hin h
          · rw [walk_exit_now ops bound n fc2 (by rw [tellg_good hf2]; omega)] at h
            simp only [Res.done.injEq] at h
            subst h
            have hodd : s % 2 = 1 := by
              by_contra hne
              rw [if_neg hne] at hpos
              omega
            rw [if_pos hodd] at hpos
            refine ⟨Or.inr (by omega),
              fun _ => ⟨id, fc.input.pos + 8, s, ?_, hs, hodd, by omega⟩⟩
            rw [hhead]
            simp
    · simp only [Res.done.injEq] at h
      subst h
      exact ⟨Or.inl (by omega), fun hc => by omega⟩

/-- In a completed walk every loop head is a position of a good stream and the
eight bytes of every header lie before the bound. -/
theorem walkHeads_done (ops : LeafOps FV AB CM SD K) (bound : Int) (n : Nat) :
    ∀ (fc fc1 : FormChunk FV AB CM SD K), walk ops bound n fc = .done fc1 →
      ∀ q ∈ walkHeads ops bound n fc, 0 ≤ q ∧ q + 8 ≤ bound := by
  induction n with
  | zero => intro fc fc1 _ q hq; simp [walkHeads] at hq
  | succ n ih =>
    intro fc fc1 h q hq
    unfold walk at h
    unfold walkHeads at hq
    split_ifs at h hq with hlt
    · cases hw : walkStep ops bound fc with
      | fail e st => rw [hw] at h; cases h
      | done fc2 =>
        rw [hw] at h hq
        simp only at h hq
        obtain ⟨hg, hp0, hfit, _⟩ := walkStep_progress ops bound fc fc2 hw
        rcases List.mem_cons.mp hq with hq | hq
        · subst hq
          rw [tellg_good hg]
          exact ⟨hp0, hfit⟩
        · exact ih fc2 fc1 h q hq
    · simp at hq

/-- `read` once the `FORM` tag and the outer size have been read. -/
theorem read_header (ops : LeafOps FV AB CM SD K) (fc : FormChunk FV AB CM SD K)
    (in1 in2 : IStream) (dataSize : Int)
    (hid : fc.id = makeId 'F' 'O' 'R' 'M')
    (h1 : readId fc.input = some (makeId 'F' 'O' 'R' 'M', in1))
    (h2 : readInt32 in1 = some (dataSize, in2)) :
    read ops fc = readData ops { fc with input := in2 } in2.pos dataSize := by
  unfold read
  rw [h1]
  simp only
  rw [if_neg (by rw [hid]; simp), h2]
  simp only [(header_good h1 h2).2.2.2.1]

theorem finish_headers (ops : LeafOps FV AB CM SD K) (fc : FormChunk FV AB CM SD K) :
    headersOf (finish ops fc).state.trace = headersOf fc.trace := by
  unfold finish
  split_ifs <;> simp [Res.state, headersOf_append, headersOf]

/-- A read that succeeds has completed its walk. -/
theorem readData_ok_walk (ops : LeafOps FV AB CM SD K) (fc : FormChunk FV AB CM SD K)
    (dataStart dataSize : Int) (ft : Nat) (in1 : IStream)
    (h1 : readId fc.input = some (ft, in1))
    (hok : (readData ops fc dataStart dataSize).error = none) :
    ∃ fc3, walk ops (dataStart + dataSize)
        (walkFuel (dataStart + dataSize)
          ({ fc with input := in1, isAIFC := decide (ft = makeId 'A' 'I' 'F' 'C') } :
            FormChunk FV AB CM SD K))
        { fc with input := in1, isAIFC := decide (ft = makeId 'A' 'I' 'F' 'C') } = .done fc3 := by
  rw [readData_formType ops fc dataStart dataSize h1] at hok
  split_ifs at hok
  · simp [Res.error] at hok
  · split at hok
    · simp [Res.error] at hok
    · rename_i fc3 heq
      exact ⟨fc3, heq⟩

/-! ## Well-formed files -/

/-- C1: in a loop iteration of `FormChunk::readData` that has read the header
`(id, size)`, with `p` the position right after the 8-byte header, the iteration
fails with the chunk-bounds error if and only if `size < 0` or
`p + size > dataStart + dataSize`; an odd-sized sub-chunk ending exactly at the
bound is accepted; and when the error is raised the state is the one right
after the header: position `p`, leaf chunks untouched, no leaf reader called
(the trace gained the header only). -/
theorem C1_chunk_bounds (ops : LeafOps FV AB CM SD K) (bound : Int)
    (fc : FormChunk FV AB CM SD K) (id : Nat) (size : Int) (in1 in2 : IStream)
    (h1 : readId fc.input = some (id, in1)) (h2 : readInt32 in1 = some (size, in2)) :
    in2.pos = fc.input.pos + 8 ∧
    ((walkStep ops bound fc).error = some Err.chunkBounds ↔
        (size < 0 ∨ in2.pos + size > bound)) ∧
    (0 ≤ size → size % 2 = 1 → in2.pos + size = bound →
        (walkStep ops bound fc).error ≠ some Err.chunkBounds) ∧
    ((size < 0 ∨ in2.pos + size > bound) →
        walkStep ops bound fc = .fail .chunkBounds
          { fc with input := { data := fc.input.data, pos := in2.pos, failed := false },
                    trace := fc.trace ++ [Event.header id in2.pos size] }) := by
  have hp := header_pos h1 h2
  have hiff : (walkStep ops bound fc).error = some Err.chunkBounds ↔
      (size < 0 ∨ in2.pos + size > bound) := by
    rw [walkStep_header ops bound fc h1 h2]
    by_cases hc : size < 0 ∨ in2.pos + size > bound
    · simp [hc, Res.error]
    · simp only [hc, if_false, iff_false]
      have hd := dispatch_error ops id in2.pos size
        { fc with input := in2, trace := fc.trace ++ [Event.header id in2.pos size] }
      intro hcontra
      split at hcontra
      · rename_i e s heq
        rw [heq] at hd
        simp only [Res.error, Option.some.injEq] at hd hcontra
        rcases hd with hd | ⟨c, hd⟩
        · cases hd
        · rw [hcontra] at hd; cases hd
      · simp [Res.error] at hcontra
  refine ⟨by rw [hp], hiff, ?_, ?_⟩
  · intro hpos _ hend hcontra
    have hc := hiff.mp hcontra
    omega
  · intro hc
    rw [walkStep_header ops bound fc h1 h2, if_pos hc]
    rw [hp]

theorem C1_chunk_bounds_witness :
    walkStep blobOps 20 (blobFormAt scenarioC 12) =
      .fail .chunkBounds
        { blobFormAt scenarioC 12 with
          input := { data := scenarioC, pos := 20, failed := false },
          trace := [Event.header (makeId 'C' 'O' 'M' 'M') 20 (-1)] } :=
  (C1_chunk_bounds blobOps 20 (blobFormAt scenarioC 12) (makeId 'C' 'O' 'M' 'M') (-1)
    { data := scenarioC, pos := 16, failed := false } { data := scenarioC, pos := 20, failed := false }
    (by decide) (by decide)).2.2.2 (Or.inl (by decide))

/-- C3: when the sub-chunk walk of `FormChunk::readData` has completed without
failure in state `fc3`, the outcome is decided by the Common chunk's compression
type in `fc3`: for `able`, `decrypt` is called once with the Able chunk's key of
`fc3` (SoundData becomes the decrypted payload, the trace gains exactly that
call) and the read succeeds; for `NONE` the read succeeds with every chunk as
the walk left it and the trace gains the notice only; for any other value the
read fails with the unsupported-compression error in state `fc3`, with no call
of `decrypt`. -/
theorem C3_compression_gate (ops : LeafOps FV AB CM SD K) (fc fc3 : FormChunk FV AB CM SD K)
    (dataStart dataSize : Int) (ft : Nat) (in1 : IStream)
    (h1 : readId fc.input = some (ft, in1))
    (hft : ft = makeId 'A' 'I' 'F' 'C' ∨ ft = makeId 'A' 'I' 'F' 'F')
    (hw : walk ops (dataStart + dataSize)
        (walkFuel (dataStart + dataSize)
          ({ fc with input := in1, isAIFC := decide (ft = makeId 'A' 'I' 'F' 'C') } :
            FormChunk FV AB CM SD K))
        { fc with input := in1, isAIFC := decide (ft = makeId 'A' 'I' 'F' 'C') } = .done fc3) :
    (ops.getCompressionType fc3.commonChunk = makeId 'a' 'b' 'l' 'e' →
        readData ops fc dataStart dataSize =
          .done { fc3 with
            soundDataChunk := ops.decrypt fc3.soundDataChunk (ops.getKey fc3.ableChunk),
            trace := fc3.trace ++ [Event.decrypt (ops.getKey fc3.ableChunk)] }) ∧
    (ops.getCompressionType fc3.commonChunk = makeId 'N' 'O' 'N' 'E' →
        readData ops fc dataStart dataSize =
          .done { fc3 with trace := fc3.trace ++ [Event.info] }) ∧
    (ops.getCompressionType fc3.commonChunk ≠ makeId 'a' 'b' 'l' 'e' →
      ops.getCompressionType fc3.commonChunk ≠ makeId 'N' 'O' 'N' 'E' →
        readData ops fc dataStart dataSize = .fail .unsupportedCompression fc3) := by
  have hr := readData_after_walk ops fc fc3 dataStart dataSize ft in1 h1 hft hw
  have htags : makeId 'N' 'O' 'N' 'E' ≠ makeId 'a' 'b' 'l' 'e' := by decide
  refine ⟨?_, ?_, ?_⟩
  · intro hc
    rw [hr, finish, if_pos hc]
  · intro hc
    rw [hr, finish, if_neg (by rw [hc]; exact htags), if_pos hc]
  · intro ha hn
    rw [hr, finish, if_neg ha, if_neg hn]

theorem C3_compression_gate_witness :
    readData blobOps (blobFormAt scenarioAble 8) 8 56 =
      .done { id := makeId 'F' 'O' 'R' 'M', isAIFC := true, formatVersionChunk := [],
              ableChunk := [0x0F, 0x00], commonChunk := commBody (tag 'a' 'b' 'l' 'e'),
              soundDataChunk := [1, 2, 3, 4],
              input := { data := scenarioAble, pos := 64, failed := false },
              trace := [Event.header (makeId 'a' 'b' 'l' 'e') 20 2,
                        Event.leafRead .able 20 2,
                        Event.header (makeId 'C' 'O' 'M' 'M') 30 22,
                        Event.leafRead .common 30 22,
                        Event.header (makeId 'S' 'S' 'N' 'D') 60 4,
                        Event.leafRead .soundData 60 4,
                        Event.decrypt [0x0F, 0x00]] } :=
  (C3_compression_gate blobOps (blobFormAt scenarioAble 8)
    { id := makeId 'F' 'O' 'R' 'M', isAIFC := true, formatVersionChunk := [],
      ableChunk := [0x0F, 0x00], commonChunk := commBody (tag 'a' 'b' 'l' 'e'),
      soundDataChunk := [0x0E, 0x0D, 0x0C, 0x0B],
      input := { data := scenarioAble, pos := 64, failed := false },
      trace := [Event.header (makeId 'a' 'b' 'l' 'e') 20 2,
                Event.leafRead .able 20 2,
                Event.header (makeId 'C' 'O' 'M' 'M') 30 22,
                Event.leafRead .common 30 22,
                Event.header (makeId 'S' 'S' 'N' 'D') 60 4,
                Event.leafRead .soundData 60 4] }
    8 56 (makeId 'A' 'I' 'F' 'C') { data := scenarioAble, pos := 12, failed := false }
    (by decide) (by decide) (by decide)).1 (by decide)

/-- C4: with the container's identifier being `FORM` (as the constructor sets
it), if the first identifier of the stream is not `FORM` then `FormChunk::read`
fails with the not-an-AIFC-file error and the only change is that the stream
has advanced by those four bytes: `isAIFC`, the four leaf chunks and the trace
(no header, no leaf call) are as before. If the first identifier is `FORM`, the
read never fails with that error. -/
theorem C4_not_an_aifc_file (ops : LeafOps FV AB CM SD K) (fc : FormChunk FV AB CM SD K)
    (id : Nat) (in1 : IStream)
    (hid : fc.id = makeId 'F' 'O' 'R' 'M') (h1 : readId fc.input = some (id, in1)) :
    (id ≠ makeId 'F' 'O' 'R' 'M' →
        read ops fc = .fail .notAnAIFCFile
          { fc with input := { data := fc.input.data, pos := fc.input.pos + 4, failed := false } }) ∧
    (id = makeId 'F' 'O' 'R' 'M' → (read ops fc).error ≠ some .notAnAIFCFile) := by
  constructor
  · intro hne
    unfold read
    rw [h1]
    simp only
    rw [if_pos (by rw [hid]; exact hne), readId_stream h1]
  · intro heq
    unfold read
    rw [h1]
    simp only
    rw [if_neg (by rw [hid, heq]; simp)]
    split
    · simp [Res.error]
    · intro hcontra
      have := readData_error ops _ _ _ _ hcontra
      simp at this

theorem C4_not_an_aifc_file_witness :
    read blobOps (blobForm scenarioB) =
      .fail .notAnAIFCFile
        { blobForm scenarioB with input := { data := scenarioB, pos := 4, failed := false } } :=
  (C4_not_an_aifc_file blobOps (blobForm scenarioB) (makeId 'X' 'Y' 'Z' 'Z')
    { data := scenarioB, pos := 4, failed := false } (by decide) (by decide)).1 (by decide)

/-- C5: once `FormChunk::readData` has read the form type `ft`, it fails with the
unsupported-form-type error if and only if `ft` is neither `AIFC` nor `AIFF`;
in that case the only change is that the stream has advanced by the four bytes
(`isAIFC` and the trace are as before, no header was read). Otherwise the walk
starts from the state in which `isAIFC` is already set, to true exactly for
`AIFC` and to false for `AIFF`, and `isAIFC` keeps that value to the end of
`readData`. -/
theorem C5_form_type (ops : LeafOps FV AB CM SD K) (fc : FormChunk FV AB CM SD K)
    (dataStart dataSize : Int) (ft : Nat) (in1 : IStream)
    (h1 : readId fc.input = some (ft, in1)) :
    ((readData ops fc dataStart dataSize).error = some .unsupportedFormType ↔
        (ft ≠ makeId 'A' 'I' 'F' 'C' ∧ ft ≠ makeId 'A' 'I' 'F' 'F')) ∧
    ((ft ≠ makeId 'A' 'I' 'F' 'C' ∧ ft ≠ makeId 'A' 'I' 'F' 'F') →
        readData ops fc dataStart dataSize = .fail .unsupportedFormType
          { fc with input := { data := fc.input.data, pos := fc.input.pos + 4, failed := false } }) ∧
    ((ft = makeId 'A' 'I' 'F' 'C' ∨ ft = makeId 'A' 'I' 'F' 'F') →
        readData ops fc dataStart dataSize =
          (match walk ops (dataStart + dataSize)
              (walkFuel (dataStart + dataSize)
                ({ fc with input := in1, isAIFC := decide (ft = makeId 'A' 'I' 'F' 'C') } :
                  FormChunk FV AB CM SD K))
              { fc with input := in1, isAIFC := decide (ft = makeId 'A' 'I' 'F' 'C') } with
            | .fail e s => .fail e s
            | .done fc3 => finish ops fc3) ∧
        (ft = makeId 'A' 'I' 'F' 'C' →
          (readData ops fc dataStart dataSize).state.isAIFC = true) ∧
        (ft = makeId 'A' 'I' 'F' 'F' →
          (readData ops fc dataStart dataSize).state.isAIFC = false)) := by
  have hr := readData_formType ops fc dataStart dataSize h1
  have hfinal : ¬ (ft ≠ makeId 'A' 'I' 'F' 'C' ∧ ft ≠ makeId 'A' 'I' 'F' 'F') →
      (readData ops fc dataStart dataSize).state.isAIFC =
        decide (ft = makeId 'A' 'I' 'F' 'C') := by
    intro hc
    rw [hr, if_neg hc]
    have hw := walk_frame ops (dataStart + dataSize)
      (walkFuel (dataStart + dataSize)
        ({ fc with input := in1, isAIFC := decide (ft = makeId 'A' 'I' 'F' 'C') } :
          FormChunk FV AB CM SD K))
      { fc with input := in1, isAIFC := decide (ft = makeId 'A' 'I' 'F' 'C') }
    split
    · rename_i e s heq
      rw [heq] at hw
      exact hw.2.1
    · rename_i fc3 heq
      rw [heq] at hw
      exact (finish_frame ops fc3).2.1.trans hw.2.1
  refine ⟨?_, ?_, ?_⟩
  · constructor
    · intro he
      by_contra hc
      rw [hr, if_neg hc] at he
      split at he
      · rename_i e s heq
        simp only [Res.error, Option.some.injEq] at he
        subst he
        have := walk_error ops _ _ _ .unsupportedFormType (by rw [heq]; rfl)
        simp at this
      · have := finish_error ops _ _ he
        cases this
    · intro hc
      rw [hr, if_pos hc]
      rfl
  · intro hc
    rw [hr, if_pos hc, readId_stream h1]
  · intro hc
    have hne : ¬ (ft ≠ makeId 'A' 'I' 'F' 'C' ∧ ft ≠ makeId 'A' 'I' 'F' 'F') := by
      rcases hc with h | h <;> simp [h]
    refine ⟨?_, ?_, ?_⟩
    · rw [hr, if_neg hne]
    · intro h
      rw [hfinal hne, h]
      rfl
    · intro h
      rw [hfinal hne, h]
      decide

theorem C5_form_type_witness :
    readData blobOps (blobFormAt scenarioWave 8) 8 4 =
      .fail .unsupportedFormType
        { blobFormAt scenarioWave 8 with input := { data := scenarioWave, pos := 12, failed := false } } :=
  (C5_form_type blobOps (blobFormAt scenarioWave 8) 8 4 (makeId 'W' 'A' 'V' 'E')
    { data := scenarioWave, pos := 12, failed := false } (by decide)).2.1 (by decide)

/-- C6: for an accepted sub-chunk whose identifier is that of none of the four
leaf chunks, the loop iteration completes and changes nothing but the stream
position, which becomes the padded end, and the trace, which gains the header and
no leaf call: the leaf chunks and `isAIFC` are as before. The same holds on any
stream `d2` that differs from the given one only inside the sub-chunk's body
`[p, p + size)`, and the walks that continue from there on the two streams read
the same later headers `(identifier, data start, size)`: the two header lists are
equal when both walks complete, and one is an initial part of the other when a
leaf reader stops one of them early. -/
theorem C6_unknown_skipped (ops : LeafOps FV AB CM SD K) (bound : Int)
    (fc : FormChunk FV AB CM SD K) (id : Nat) (size : Int) (in1 in2 : IStream)
    (h1 : readId fc.input = some (id, in1)) (h2 : readInt32 in1 = some (size, in2))
    (hs : 0 ≤ size) (hb : in2.pos + size ≤ bound)
    (hunk : ∀ w : Leaf, id ≠ leafId ops fc w) :
    walkStep ops bound fc =
      .done { fc with input := { data := fc.input.data, pos := subChunkDataEnd in2.pos size, failed := false },
                      trace := fc.trace ++ [Event.header id in2.pos size] } ∧
    ∀ d2 : List Byte,
      (∀ i : Nat, ((i : Int) < in2.pos ∨ in2.pos + size ≤ (i : Int)) →
        d2[i]? = fc.input.data[i]?) →
      walkStep ops bound { fc with input := { data := d2, pos := fc.input.pos, failed := false } } =
        .done { fc with input := { data := d2, pos := subChunkDataEnd in2.pos size, failed := false },
                        trace := fc.trace ++ [Event.header id in2.pos size] } ∧
      ∀ n : Nat,
        (headersOf (walk ops bound n
            { fc with input := { data := fc.input.data, pos := subChunkDataEnd in2.pos size, failed := false },
                      trace := fc.trace ++ [Event.header id in2.pos size] }).state.trace
          <+: headersOf (walk ops bound n
            { fc with input := { data := d2, pos := subChunkDataEnd in2.pos size, failed := false },
                      trace := fc.trace ++ [Event.header id in2.pos size] }).state.trace ∨
         headersOf (walk ops bound n
            { fc with input := { data := d2, pos := subChunkDataEnd in2.pos size, failed := false },
                      trace := fc.trace ++ [Event.header id in2.pos size] }).state.trace
          <+: headersOf (walk ops bound n
            { fc with input := { data := fc.input.data, pos := subChunkDataEnd in2.pos size, failed := false },
                      trace := fc.trace ++ [Event.header id in2.pos size] }).state.trace) ∧
        ((walk ops bound n
            { fc with input := { data := fc.input.data, pos := subChunkDataEnd in2.pos size, failed := false },
                      trace := fc.trace ++ [Event.header id in2.pos size] }).error = none →
         (walk ops bound n
            { fc with input := { data := d2, pos := subChunkDataEnd in2.pos size, failed := false },
                      trace := fc.trace ++ [Event.header id in2.pos size] }).error = none →
         headersOf (walk ops bound n
            { fc with input := { data := fc.input.data, pos := subChunkDataEnd in2.pos size, failed := false },
                      trace := fc.trace ++ [Event.header id in2.pos size] }).state.trace
          = headersOf (walk ops bound n
            { fc with input := { data := d2, pos := subChunkDataEnd in2.pos size, failed := false },
                      trace := fc.trace ++ [Event.header id in2.pos size] }).state.trace) := by
  have hc : ¬ (size < 0 ∨ in2.pos + size > bound) := by omega
  have hp := header_pos h1 h2
  have e1 := readId_stream h1
  have hin : ({ data := fc.input.data, pos := fc.input.pos, failed := false } : IStream)
      = fc.input := by rw [← (readId_good h1).1]
  have hg := header_good h1 h2
  have hend : 0 ≤ subChunkDataEnd in2.pos size := by
    rw [subChunkDataEnd_nonneg _ hs]
    split_ifs <;> omega
  constructor
  · rw [walkStep_header ops bound fc h1 h2, if_neg hc,
      dispatch_unknown ops _ id in2.pos size
        (by intro w; rw [leafId_header]; exact hunk w)]
    simp only
    rw [seekg_good hg.2.2.1 hend, hp]
  intro d2 hagree
  have hpos : in2.pos = fc.input.pos + 8 := by rw [hp]
  have g1 : readId ({ data := d2, pos := fc.input.pos, failed := false } : IStream) =
      some (id, { data := d2, pos := fc.input.pos + 4, failed := false }) := by
    rw [readId_congr fc.input.data d2 fc.input.pos
      (fun i _ hi => hagree i (Or.inl (by omega))), hin, h1, e1]
    rfl
  have g2 : readInt32 ({ data := d2, pos := fc.input.pos + 4, failed := false } : IStream) =
      some (size, { data := d2, pos := in2.pos, failed := false }) := by
    rw [readInt32_congr fc.input.data d2 (fc.input.pos + 4)
      (fun i _ hi => hagree i (Or.inl (by omega))), ← e1, h2]
    rfl
  constructor
  · rw [walkStep_header ops bound
        ({ fc with input := { data := d2, pos := fc.input.pos, failed := false } } : FormChunk FV AB CM SD K)
        g1 g2, if_neg hc,
      dispatch_unknown ops _ id in2.pos size
        (by intro w; rw [leafId_header]; exact hunk w)]
    simp only
    rw [seekg_good rfl hend]
  intro n
  obtain ⟨LA, hA1, hA2, hA3⟩ := walk_headers ops bound n
    ({ fc with input := { data := fc.input.data, pos := subChunkDataEnd in2.pos size, failed := false },
               trace := fc.trace ++ [Event.header id in2.pos size] } : FormChunk FV AB CM SD K)
    rfl
  obtain ⟨LB, hB1, hB2, hB3⟩ := walk_headers ops bound n
    ({ fc with input := { data := d2, pos := subChunkDataEnd in2.pos size, failed := false },
               trace := fc.trace ++ [Event.header id in2.pos size] } : FormChunk FV AB CM SD K)
    rfl
  simp only at hA1 hA2 hA3 hB1 hB2 hB3
  have hscan := scanHeaders_congr fc.input.data d2 bound (in2.pos + size)
    (fun i hi => hagree i (Or.inr hi)) n (subChunkDataEnd in2.pos size)
    (by rw [subChunkDataEnd_nonneg _ hs]; split_ifs <;> omega)
  rw [hscan] at hB2 hB3
  rw [hA1, hB1]
  constructor
  · rcases List.prefix_or_prefix_of_prefix hA2 hB2 with h | h
    · exact Or.inl ((List.prefix_append_right_inj _).mpr h)
    · exact Or.inr ((List.prefix_append_right_inj _).mpr h)
  · intro ha hb
    rw [hA3 ha, hB3 hb]

theorem C6_unknown_skipped_witness :
    walkStep blobOps 36 (blobFormAt oddJunkAlt 12) =
      .done { blobFormAt oddJunkAlt 12 with
              input := { data := oddJunkAlt, pos := 24, failed := false },
              trace := [Event.header (makeId 'J' 'U' 'N' 'K') 20 3] } :=
  ((C6_unknown_skipped blobOps 36 (blobFormAt oddJunk 12) (makeId 'J' 'U' 'N' 'K') 3
    { data := oddJunk, pos := 16, failed := false } { data := oddJunk, pos := 20, failed := false }
    (by decide) (by decide) (by decide) (by decide)
    (by intro w; cases w <;> decide)).2 oddJunkAlt
    (by
      intro i hi
      rcases Nat.lt_or_ge i 36 with h | h
      · interval_cases i <;> first | rfl | (exfalso; simp at hi)
      · rw [List.getElem?_eq_none (by simpa using h), List.getElem?_eq_none (by simpa using h)])).1

/-- C7: with pairwise distinct leaf identifiers, for an accepted sub-chunk whose
identifier is that of leaf `w`, the loop iteration is the call of `w`'s reader on
the stream positioned at `p` (right after the 8-byte header) with arguments
`(p, size)`, followed by the seek when the reader returns; the trace gains the
header and exactly one leaf call, that of `w` with `(p, size)`; the state of `w`
becomes what its reader returned and the other three leaf chunks are
unchanged. -/
theorem C7_dispatch_known (ops : LeafOps FV AB CM SD K) (bound : Int)
    (fc : FormChunk FV AB CM SD K) (id : Nat) (size : Int) (in1 in2 : IStream) (w : Leaf)
    (h1 : readId fc.input = some (id, in1)) (h2 : readInt32 in1 = some (size, in2))
    (hs : 0 ≤ size) (hb : in2.pos + size ≤ bound)
    (hdist : ∀ a b : Leaf, a ≠ b → leafId ops fc a ≠ leafId ops fc b)
    (hid : id = leafId ops fc w) :
    in2 = { data := fc.input.data, pos := fc.input.pos + 8, failed := false } ∧
    walkStep ops bound fc =
      (match invoke ops w in2.pos size
          { fc with input := in2, trace := fc.trace ++ [Event.header id in2.pos size] } with
        | .fail e s => .fail e s
        | .done fc3 =>
            .done { fc3 with input := fc3.input.seekg (subChunkDataEnd in2.pos size) }) ∧
    (walkStep ops bound fc).state.trace =
      fc.trace ++ [Event.header id in2.pos size, Event.leafRead w in2.pos size] ∧
    (walkStep ops bound fc).state.formatVersionChunk =
      (if w = .formatVersion then (ops.fvReadData in2 in2.pos size fc.formatVersionChunk).state
        else fc.formatVersionChunk) ∧
    (walkStep ops bound fc).state.ableChunk =
      (if w = .able then (ops.abReadData in2 in2.pos size fc.ableChunk).state
        else fc.ableChunk) ∧
    (walkStep ops bound fc).state.commonChunk =
      (if w = .common then (ops.cmReadData in2 in2.pos size fc.commonChunk).state
        else fc.commonChunk) ∧
    (walkStep ops bound fc).state.soundDataChunk =
      (if w = .soundData then (ops.sdReadData in2 in2.pos size fc.soundDataChunk).state
        else fc.soundDataChunk) := by
  have hc : ¬ (size < 0 ∨ in2.pos + size > bound) := by omega
  have hstep := walkStep_header ops bound fc h1 h2
  rw [if_neg hc] at hstep
  have hdisp := dispatch_leaf ops
    { fc with input := in2, trace := fc.trace ++ [Event.header id in2.pos size] }
    id in2.pos size w
    (by intro a b hab; rw [leafId_header, leafId_header]; exact hdist a b hab)
    (by rw [leafId_header]; exact hid)
  rw [hdisp] at hstep
  have hseek := seek_state
    (invoke ops w in2.pos size
      { fc with input := in2, trace := fc.trace ++ [Event.header id in2.pos size] })
    (subChunkDataEnd in2.pos size)
  have hleaves := invoke_leaves ops w in2.pos size
    { fc with input := in2, trace := fc.trace ++ [Event.header id in2.pos size] }
  have hframe := invoke_frame ops w in2.pos size
    { fc with input := in2, trace := fc.trace ++ [Event.header id in2.pos size] }
  refine ⟨header_pos h1 h2, hstep, ?_, ?_, ?_, ?_, ?_⟩
  · rw [hstep, hseek.1, hframe.2.2.2]
    simp
  · rw [hstep, hseek.2.1, hleaves.1]
  · rw [hstep, hseek.2.2.1, hleaves.2.1]
  · rw [hstep, hseek.2.2.2.1, hleaves.2.2.1]
  · rw [hstep, hseek.2.2.2.2, hleaves.2.2.2]

theorem C7_dispatch_known_witness :
    (walkStep blobOps 54 (blobFormAt scenarioA 12)).state.trace =
      [Event.header (makeId 'C' 'O' 'M' 'M') 20 22, Event.leafRead .common 20 22] ∧
    (walkStep blobOps 54 (blobFormAt scenarioA 12)).state.formatVersionChunk = [] ∧
    (walkStep blobOps 54 (blobFormAt scenarioA 12)).state.ableChunk = [] ∧
    (walkStep blobOps 54 (blobFormAt scenarioA 12)).state.commonChunk =
      commBody (tag 'N' 'O' 'N' 'E') ∧
    (walkStep blobOps 54 (blobFormAt scenarioA 12)).state.soundDataChunk = [] :=
  (C7_dispatch_known blobOps 54 (blobFormAt scenarioA 12) (makeId 'C' 'O' 'M' 'M') 22
    { data := scenarioA, pos := 16, failed := false } { data := scenarioA, pos := 20, failed := false } .common
    (by decide) (by decide) (by decide) (by decide)
    (by intro a b hab; cases a <;> cases b <;> first | exact absurd rfl hab | decide)
    (by decide)).2.2

/-- C8: `FormChunk::writeData` appends to the output exactly the four bytes
`A`, `I`, `F`, `C` followed by what the FormatVersion, the Common and the
SoundData writer emit, in that order, and nothing else; the output does not
depend on `isAIFC`, the Able chunk, the container's identifier or the input
stream. -/
theorem C8_write_layout (ops : LeafOps FV AB CM SD K) (fc : FormChunk FV AB CM SD K)
    (out : List Byte) :
    writeData ops fc out =
      out ++ [0x41, 0x49, 0x46, 0x43] ++ ops.fvWrite fc.formatVersionChunk ++
        ops.cmWrite fc.commonChunk ++ ops.sdWrite fc.soundDataChunk ∧
    ([0x41, 0x49, 0x46, 0x43] : List Byte) = tag 'A' 'I' 'F' 'C' ∧
    ∀ (b : Bool) (ab : AB) (i : Nat) (inp : IStream) (tr : List (Event K)),
      writeData ops { fc with isAIFC := b, ableChunk := ab, id := i, input := inp, trace := tr }
          out = writeData ops fc out := by
  refine ⟨?_, by decide, ?_⟩
  · simp only [writeData, writeId]
    rfl
  · intro b ab i inp tr
    rfl

/-- C10: `FormChunk::readData` fails with the unsupported-compression error only
when the form type was accepted and the whole walk completed: the failing state
is the state in which the loop exited, its stream position is at or past
`dataStart + dataSize`, every header of the region is in its trace, and the
compression type that was rejected is the one of the Common chunk in that
state. When instead the walk fails, `readData` fails with the walk's error (the
chunk-bounds error for a sub-chunk that violates the bounds, whatever the
Common chunk holds), which is never the unsupported-compression error. -/
theorem C10_compression_after_walk (ops : LeafOps FV AB CM SD K)
    (fc : FormChunk FV AB CM SD K) (dataStart dataSize : Int) (ft : Nat) (in1 : IStream)
    (h1 : readId fc.input = some (ft, in1)) :
    (∀ st, readData ops fc dataStart dataSize = .fail .unsupportedCompression st →
      (ft = makeId 'A' 'I' 'F' 'C' ∨ ft = makeId 'A' 'I' 'F' 'F') ∧
      walk ops (dataStart + dataSize)
        (walkFuel (dataStart + dataSize)
          ({ fc with input := in1, isAIFC := decide (ft = makeId 'A' 'I' 'F' 'C') } :
            FormChunk FV AB CM SD K))
        { fc with input := in1, isAIFC := decide (ft = makeId 'A' 'I' 'F' 'C') } = .done st ∧
      st.input.failed = false ∧ dataStart + dataSize ≤ st.input.tellg ∧
      dataStart + dataSize ≤ st.input.pos ∧
      headersOf st.trace = headersOf fc.trace ++
        scanHeaders in1.data (dataStart + dataSize)
          (walkFuel (dataStart + dataSize)
            ({ fc with input := in1, isAIFC := decide (ft = makeId 'A' 'I' 'F' 'C') } :
              FormChunk FV AB CM SD K)) in1.pos ∧
      ops.getCompressionType st.commonChunk ≠ makeId 'a' 'b' 'l' 'e' ∧
      ops.getCompressionType st.commonChunk ≠ makeId 'N' 'O' 'N' 'E') ∧
    (∀ e st, (ft = makeId 'A' 'I' 'F' 'C' ∨ ft = makeId 'A' 'I' 'F' 'F') →
      walk ops (dataStart + dataSize)
        (walkFuel (dataStart + dataSize)
          ({ fc with input := in1, isAIFC := decide (ft = makeId 'A' 'I' 'F' 'C') } :
            FormChunk FV AB CM SD K))
        { fc with input := in1, isAIFC := decide (ft = makeId 'A' 'I' 'F' 'C') } = .fail e st →
      readData ops fc dataStart dataSize = .fail e st ∧ e ≠ .unsupportedCompression) := by
  have hr := readData_formType ops fc dataStart dataSize h1
  constructor
  · intro st hfail
    by_cases hc : ft ≠ makeId 'A' 'I' 'F' 'C' ∧ ft ≠ makeId 'A' 'I' 'F' 'F'
    · rw [hr, if_pos hc] at hfail
      simp at hfail
    rw [hr, if_neg hc] at hfail
    have hft : ft = makeId 'A' 'I' 'F' 'C' ∨ ft = makeId 'A' 'I' 'F' 'F' := by
      by_contra hn
      exact hc ⟨fun h => hn (Or.inl h), fun h => hn (Or.inr h)⟩
    cases hw : walk ops (dataStart + dataSize)
        (walkFuel (dataStart + dataSize)
          ({ fc with input := in1, isAIFC := decide (ft = makeId 'A' 'I' 'F' 'C') } :
            FormChunk FV AB CM SD K))
        { fc with input := in1, isAIFC := decide (ft = makeId 'A' 'I' 'F' 'C') } with
    | fail e s =>
      rw [hw] at hfail
      simp only [Res.fail.injEq] at hfail
      have := walk_error ops _ _ _ e (by rw [hw]; rfl)
      rw [hfail.1] at this
      simp at this
    | done fc3 =>
      rw [hw] at hfail
      simp only at hfail
      have hst : fc3 = st ∧
          ops.getCompressionType fc3.commonChunk ≠ makeId 'a' 'b' 'l' 'e' ∧
          ops.getCompressionType fc3.commonChunk ≠ makeId 'N' 'O' 'N' 'E' := by
        unfold finish at hfail
        split_ifs at hfail with ha hn
        simp only [Res.fail.injEq, true_and] at hfail
        exact ⟨hfail, ha, hn⟩
      obtain ⟨hst, ha, hn⟩ := hst
      subst hst
      obtain ⟨L, hL1, _, hL3⟩ := walk_headers ops (dataStart + dataSize)
        (walkFuel (dataStart + dataSize)
          ({ fc with input := in1, isAIFC := decide (ft = makeId 'A' 'I' 'F' 'C') } :
            FormChunk FV AB CM SD K))
        { fc with input := in1, isAIFC := decide (ft = makeId 'A' 'I' 'F' 'C') }
        (readId_good_out h1)
      rw [hw] at hL1 hL3
      simp only [Res.state, Res.error, true_implies] at hL1 hL3
      have hdone := walk_done_pos ops (dataStart + dataSize) _ _ fc3 (readId_good_out h1) hw
      refine ⟨hft, rfl, hdone.1, by rw [tellg_good hdone.1]; exact hdone.2, hdone.2, ?_,
        ha, hn⟩
      rw [hL1, hL3]
  · intro e st hft hw
    have hne : ¬ (ft ≠ makeId 'A' 'I' 'F' 'C' ∧ ft ≠ makeId 'A' 'I' 'F' 'F') := by
      rcases hft with h | h <;> simp [h]
    constructor
    · rw [hr, if_neg hne, hw]
    · intro he
      have := walk_error ops _ _ _ e (by rw [hw]; rfl)
      rw [he] at this
      simp at this

theorem C10_compression_after_walk_witness :
    readData blobOps (blobFormAt scenarioDBounds 8) 8 46 =
      .fail .chunkBounds
        { id := makeId 'F' 'O' 'R' 'M', isAIFC := true, formatVersionChunk := [],
          ableChunk := [], commonChunk := commBody (tag 'z' 'z' 'z' 'z'),
          soundDataChunk := [],
          input := { data := scenarioDBounds, pos := 50, failed := false },
          trace := [Event.header (makeId 'C' 'O' 'M' 'M') 20 22,
                    Event.leafRead .common 20 22,
                    Event.header (makeId 'S' 'S' 'N' 'D') 50 100] } ∧
    Err.chunkBounds ≠ Err.unsupportedCompression :=
  (C10_compression_after_walk blobOps (blobFormAt scenarioDBounds 8) 8 46
    (makeId 'A' 'I' 'F' 'C') { data := scenarioDBounds, pos := 12, failed := false } (by decide)).2
    .chunkBounds
    { id := makeId 'F' 'O' 'R' 'M', isAIFC := true, formatVersionChunk := [],
      ableChunk := [], commonChunk := commBody (tag 'z' 'z' 'z' 'z'),
      soundDataChunk := [],
      input := { data := scenarioDBounds, pos := 50, failed := false },
      trace := [Event.header (makeId 'C' 'O' 'M' 'M') 20 22,
                Event.leafRead .common 20 22,
                Event.header (makeId 'S' 'S' 'N' 'D') 50 100] }
    (by decide) (by decide)

/-- C12: for an input that starts with `FORM`, a declared outer size
`dataSize ≥ 4` and an accepted form type, whose sub-chunk walk completes (in
state `fc3`), `FormChunk::read` takes its final decision in `fc3` without moving
the stream, the stream is good there, and the position at which the loop exited
is `dataStart + dataSize` or `dataStart + dataSize + 1`; it is the latter only
when the last sub-chunk header read has an odd size `s ≥ 0` and data start `p`
with `p + s = dataStart + dataSize`. -/
theorem C12_exit_position (ops : LeafOps FV AB CM SD K) (fc fc3 : FormChunk FV AB CM SD K)
    (in1 in2 in3 : IStream) (dataSize : Int) (ft : Nat)
    (hid : fc.id = makeId 'F' 'O' 'R' 'M')
    (h1 : readId fc.input = some (makeId 'F' 'O' 'R' 'M', in1))
    (h2 : readInt32 in1 = some (dataSize, in2))
    (h3 : readId in2 = some (ft, in3))
    (hft : ft = makeId 'A' 'I' 'F' 'C' ∨ ft = makeId 'A' 'I' 'F' 'F')
    (hsize : 4 ≤ dataSize)
    (hw : walk ops (in2.pos + dataSize)
        (walkFuel (in2.pos + dataSize)
          ({ fc with input := in3, isAIFC := decide (ft = makeId 'A' 'I' 'F' 'C') } :
            FormChunk FV AB CM SD K))
        { fc with input := in3, isAIFC := decide (ft = makeId 'A' 'I' 'F' 'C') } = .done fc3) :
    read ops fc = finish ops fc3 ∧
    (read ops fc).state.input = fc3.input ∧
    (fc3.input.pos = in2.pos + dataSize ∨ fc3.input.pos = in2.pos + dataSize + 1) ∧
    (fc3.input.pos = in2.pos + dataSize + 1 →
      ∃ (id : Nat) (p s : Int), (headersOf fc3.trace).getLast? = some (id, p, s) ∧
        0 ≤ s ∧ s % 2 = 1 ∧ p + s = in2.pos + dataSize) ∧
    fc3.input.failed = false ∧ fc3.input.tellg = fc3.input.pos := by
  have hread : read ops fc = finish ops fc3 := by
    rw [read_header ops fc in1 in2 dataSize hid h1 h2,
      readData_after_walk ops { fc with input := in2 } fc3 in2.pos dataSize ft in3 h3 hft hw]
  have hstart : in3.pos ≤ in2.pos + dataSize := by
    rw [readId_stream h3]
    simp only
    omega
  have hexit := walk_exit ops (in2.pos + dataSize) _ _ fc3 (readId_good_out h3) hstart hw
  have hgood := (walk_done_pos ops (in2.pos + dataSize) _ _ fc3 (readId_good_out h3) hw).1
  refine ⟨hread, ?_, hexit.1, hexit.2, hgood, tellg_good hgood⟩
  rw [hread]
  exact (finish_frame ops fc3).2.2.1

theorem C12_exit_position_witness :
    (read blobOps (blobForm oddTail)).state.input = { data := oddTail, pos := 24, failed := false } :=
  (C12_exit_position blobOps (blobForm oddTail)
    { id := makeId 'F' 'O' 'R' 'M', isAIFC := true, formatVersionChunk := [],
      ableChunk := [], commonChunk := [], soundDataChunk := [],
      input := { data := oddTail, pos := 24, failed := false },
      trace := [Event.header (makeId 'J' 'U' 'N' 'K') 20 3] }
    { data := oddTail, pos := 4, failed := false } { data := oddTail, pos := 8, failed := false }
    { data := oddTail, pos := 12, failed := false } 15 (makeId 'A' 'I' 'F' 'C')
    (by decide) (by decide) (by decide) (by decide) (by decide) (by decide) (by decide)).2.1

/-- C14: at a loop head of the walk of `FormChunk::readData` with between 1 and 7
bytes left between `tellg` and `dataStart + dataSize`, the iteration fails: with a primitive
read error, or else the header has been read across the end, the data start is
past the bound and the bounds check fails whatever the declared size; so no walk
from that state completes. Hence in every completed walk, and so in every
successful read, each loop head has at least 8 bytes before the bound: each
sub-chunk header lies inside the declared region. -/
theorem C14_header_across_end (ops : LeafOps FV AB CM SD K) (bound : Int)
    (fc : FormChunk FV AB CM SD K)
    (hlo : 1 ≤ bound - fc.input.tellg) (hhi : bound - fc.input.tellg ≤ 7) :
    ((walkStep ops bound fc).error = some .truncatedRead ∨
      (walkStep ops bound fc).error = some .chunkBounds) ∧
    (∀ (id : Nat) (size : Int) (in1 in2 : IStream),
      readId fc.input = some (id, in1) → readInt32 in1 = some (size, in2) →
        bound < in2.pos ∧ (walkStep ops bound fc).error = some .chunkBounds) ∧
    (∀ n fc1, walk ops bound n fc ≠ .done fc1) ∧
    (∀ n, (walk ops bound (n + 1) fc).error = some .truncatedRead ∨
      (walk ops bound (n + 1) fc).error = some .chunkBounds) ∧
    (∀ (n : Nat) (fc0 fc1 : FormChunk FV AB CM SD K), walk ops bound n fc0 = .done fc1 →
      ∀ q ∈ walkHeads ops bound n fc0, q + 8 ≤ bound) ∧
    (∀ (fc0 : FormChunk FV AB CM SD K) (dataStart dataSize : Int) (ft : Nat) (in1 : IStream)
      (q : Int), readId fc0.input = some (ft, in1) →
      q ∈ walkHeads ops (dataStart + dataSize)
        (walkFuel (dataStart + dataSize)
          ({ fc0 with input := in1, isAIFC := decide (ft = makeId 'A' 'I' 'F' 'C') } :
            FormChunk FV AB CM SD K))
        { fc0 with input := in1, isAIFC := decide (ft = makeId 'A' 'I' 'F' 'C') } →
      1 ≤ dataStart + dataSize - q → dataStart + dataSize - q ≤ 7 →
        (readData ops fc0 dataStart dataSize).error ≠ none) := by
  have hlt : fc.input.tellg < bound := by omega
  have hhead : ∀ (id : Nat) (size : Int) (in1 in2 : IStream),
      readId fc.input = some (id, in1) → readInt32 in1 = some (size, in2) →
        bound < in2.pos ∧ (walkStep ops bound fc).error = some .chunkBounds := by
    intro id size in1 in2 g1 g2
    have e2 := header_pos g1 g2
    have hg := header_good g1 g2
    rw [tellg_good hg.1] at hhi
    have hp : bound < in2.pos := by rw [e2]; simp only; omega
    refine ⟨hp, ?_⟩
    rw [walkStep_header ops bound fc g1 g2, if_pos (by omega)]
    rfl
  have hstep : (walkStep ops bound fc).error = some .truncatedRead ∨
      (walkStep ops bound fc).error = some .chunkBounds := by
    cases g1 : readId fc.input with
    | none => left; rw [walkStep_noId ops bound fc g1]; rfl
    | some r1 =>
      obtain ⟨id, in1⟩ := r1
      cases g2 : readInt32 in1 with
      | none => left; rw [walkStep_noSize ops bound fc g1 g2]; rfl
      | some r2 =>
        obtain ⟨size, in2⟩ := r2
        exact Or.inr (hhead id size in1 in2 g1 g2).2
  have hwalk : ∀ n, (walk ops bound (n + 1) fc).error = some .truncatedRead ∨
      (walk ops bound (n + 1) fc).error = some .chunkBounds := by
    intro n
    unfold walk
    rw [if_pos hlt]
    cases hw : walkStep ops bound fc with
    | fail e st =>
      rw [hw] at hstep
      exact hstep
    | done fc1 =>
      rw [hw] at hstep
      simp [Res.error] at hstep
  refine ⟨hstep, hhead, ?_, hwalk, ?_, ?_⟩
  · intro n fc1 hdone
    cases n with
    | zero => simp [walk, hlt] at hdone
    | succ n =>
      have := hwalk n
      rw [hdone] at this
      simp [Res.error] at this
  · intro n fc0 fc1 hdone
    exact fun q hq => (walkHeads_done ops bound n fc0 fc1 hdone q hq).2
  · intro fc0 dataStart dataSize ft in1 q g1 hq qlo qhi hok
    obtain ⟨fc3, hw⟩ := readData_ok_walk ops fc0 dataStart dataSize ft in1 g1 hok
    have := (walkHeads_done ops (dataStart + dataSize) _ _ fc3 hw q hq).2
    omega

theorem C14_header_across_end_witness :
    (walkStep blobOps 17 (blobFormAt shortRegion 12)).error = some .truncatedRead ∨
      (walkStep blobOps 17 (blobFormAt shortRegion 12)).error = some .chunkBounds :=
  (C14_header_across_end blobOps 17 (blobFormAt shortRegion 12) (by decide) (by decide)).1

/-- C15: `FormChunk::read` does not check the declared outer size. For an input
with the `FORM` tag, a declared size `dataSize ≤ 4` (negative values included)
and form type `AIFC` or `AIFF`: the form type is read (the stream ends 12 bytes
after the start), the loop is not entered, so no header is read and no
chunk-bounds error is raised, and the final decision is taken in a state whose
four leaf chunks are those at entry. The outcome depends only on the compression
type of that Common chunk: the read succeeds exactly for `able` and `NONE` and
fails with the unsupported-compression error otherwise. FormatVersion, Able and
Common are unchanged at the end; SoundData is unchanged unless the compression
type is `able`, in which case it is what `decrypt` returns for the entry state. -/
theorem C15_outer_size_unchecked (ops : LeafOps FV AB CM SD K) (fc : FormChunk FV AB CM SD K)
    (in1 in2 in3 : IStream) (dataSize : Int) (ft : Nat)
    (hid : fc.id = makeId 'F' 'O' 'R' 'M')
    (h1 : readId fc.input = some (makeId 'F' 'O' 'R' 'M', in1))
    (h2 : readInt32 in1 = some (dataSize, in2))
    (h3 : readId in2 = some (ft, in3))
    (hft : ft = makeId 'A' 'I' 'F' 'C' ∨ ft = makeId 'A' 'I' 'F' 'F')
    (hsize : dataSize ≤ 4) :
    in3 = { data := fc.input.data, pos := fc.input.pos + 12, failed := false } ∧
    (∀ n, walkHeads ops (in2.pos + dataSize) n
        ({ fc with input := in3, isAIFC := decide (ft = makeId 'A' 'I' 'F' 'C') } :
          FormChunk FV AB CM SD K) = []) ∧
    (∀ n, walk ops (in2.pos + dataSize) n
        ({ fc with input := in3, isAIFC := decide (ft = makeId 'A' 'I' 'F' 'C') } :
          FormChunk FV AB CM SD K) =
        .done { fc with input := in3, isAIFC := decide (ft = makeId 'A' 'I' 'F' 'C') }) ∧
    read ops fc =
      finish ops { fc with input := in3, isAIFC := decide (ft = makeId 'A' 'I' 'F' 'C') } ∧
    (read ops fc).error ≠ some .chunkBounds ∧
    headersOf (read ops fc).state.trace = headersOf fc.trace ∧
    (read ops fc).state.formatVersionChunk = fc.formatVersionChunk ∧
    (read ops fc).state.ableChunk = fc.ableChunk ∧
    (read ops fc).state.commonChunk = fc.commonChunk ∧
    (ops.getCompressionType fc.commonChunk ≠ makeId 'a' 'b' 'l' 'e' →
      (read ops fc).state.soundDataChunk = fc.soundDataChunk) ∧
    (ops.getCompressionType fc.commonChunk = makeId 'a' 'b' 'l' 'e' →
      (read ops fc).state.soundDataChunk =
        ops.decrypt fc.soundDataChunk (ops.getKey fc.ableChunk)) ∧
    ((read ops fc).error = none ↔
      (ops.getCompressionType fc.commonChunk = makeId 'a' 'b' 'l' 'e' ∨
        ops.getCompressionType fc.commonChunk = makeId 'N' 'O' 'N' 'E')) ∧
    ((read ops fc).error = some .unsupportedCompression ↔
      ¬ (ops.getCompressionType fc.commonChunk = makeId 'a' 'b' 'l' 'e' ∨
        ops.getCompressionType fc.commonChunk = makeId 'N' 'O' 'N' 'E')) := by
  have e3 : in3 = { data := fc.input.data, pos := fc.input.pos + 12, failed := false } := by
    rw [readId_stream h3, header_pos h1 h2]
    simp only [IStream.mk.injEq, true_and, and_true]
    ring
  have hp2 : in2.pos = fc.input.pos + 8 := by rw [header_pos h1 h2]
  have hnot : ¬ in3.tellg < in2.pos + dataSize := by
    rw [tellg_good (readId_good_out h3), e3, hp2]
    simp only
    omega
  have hwalk : ∀ n, walk ops (in2.pos + dataSize) n
      ({ fc with input := in3, isAIFC := decide (ft = makeId 'A' 'I' 'F' 'C') } :
        FormChunk FV AB CM SD K) =
      .done { fc with input := in3, isAIFC := decide (ft = makeId 'A' 'I' 'F' 'C') } :=
    fun n => walk_exit_now ops (in2.pos + dataSize) n _ hnot
  have hread : read ops fc =
      finish ops { fc with input := in3, isAIFC := decide (ft = makeId 'A' 'I' 'F' 'C') } := by
    rw [read_header ops fc in1 in2 dataSize hid h1 h2,
      readData_after_walk ops { fc with input := in2 } _ in2.pos dataSize ft in3 h3 hft
        (hwalk _)]
  refine ⟨e3, ?_, hwalk, hread, ?_, ?_, ?_, ?_, ?_, ?_, ?_, ?_, ?_⟩
  · intro n
    cases n <;> simp [walkHeads, hnot]
  · rw [hread]
    intro hc
    have := finish_error ops _ _ hc
    cases this
  · rw [hread, finish_headers]
  · rw [hread]; exact (finish_frame ops _).2.2.2.1
  · rw [hread]; exact (finish_frame ops _).2.2.2.2.1
  · rw [hread]; exact (finish_frame ops _).2.2.2.2.2
  · intro hne
    rw [hread]
    unfold finish
    simp only [if_neg hne]
    split_ifs <;> rfl
  · intro he
    rw [hread]
    unfold finish
    simp only [if_pos he]
    rfl
  · rw [hread]
    unfold finish
    split_ifs with ha hn
    · simp [Res.error, ha]
    · simp [Res.error, hn]
    · simp [Res.error, ha, hn]
  · rw [hread]
    unfold finish
    split_ifs with ha hn
    · simp [Res.error, ha]
    · simp [Res.error, hn]
    · simp [Res.error, ha, hn]

theorem C15_outer_size_unchecked_witness :
    read blobOps (blobForm negativeOuter) =
      .fail .unsupportedCompression
        { blobForm negativeOuter with
          input := { data := negativeOuter, pos := 12, failed := false }, isAIFC := true } :=
  (C15_outer_size_unchecked blobOps (blobForm negativeOuter)
    { data := negativeOuter, pos := 4, failed := false } { data := negativeOuter, pos := 8, failed := false }
    { data := negativeOuter, pos := 12, failed := false } (-1) (makeId 'A' 'I' 'F' 'C')
    (by decide) (by decide) (by decide) (by decide) (by decide) (by decide)).2.2.2.1

/-- Scenario A: the read succeeds, the payload is unchanged and the notice is
the last event. -/
theorem scenarioA_read :
    (read blobOps (blobForm scenarioA)).error = none ∧
    (read blobOps (blobForm scenarioA)).state.soundDataChunk = [1, 2, 3, 4] ∧
    (read blobOps (blobForm scenarioA)).state.isAIFC = false ∧
    (read blobOps (blobForm scenarioA)).state.trace.getLast? = some Event.info := by
  decide

/-- Scenario B: not an AIFC file, and no header was read. -/
theorem scenarioB_read :
    (read blobOps (blobForm scenarioB)).error = some .notAnAIFCFile ∧
    (read blobOps (blobForm scenarioB)).state.trace = [] := by
  decide

/-- Scenario C: a declared size of `-1` is a chunk-bounds violation, raised
before any leaf reader is called. -/
theorem scenarioC_read :
    (read blobOps (blobForm scenarioC)).error = some .chunkBounds ∧
    (read blobOps (blobForm scenarioC)).state.trace =
      [Event.header (makeId 'C' 'O' 'M' 'M') 20 (-1)] := by
  decide

/-- Scenario D: an unrecognised compression type is rejected after both
sub-chunks have been read. -/
theorem scenarioD_read :
    (read blobOps (blobForm scenarioD)).error = some .unsupportedCompression ∧
    headersOf (read blobOps (blobForm scenarioD)).state.trace =
      [(makeId 'C' 'O' 'M' 'M', 20, 22), (makeId 'S' 'S' 'N' 'D', 50, 4)] ∧
    (read blobOps (blobForm scenarioD)).state.input.pos = 54 := by
  decide

/-- The encrypted sample: the payload is decrypted with the Able chunk's key. -/
theorem scenarioAble_read :
    (read blobOps (blobForm scenarioAble)).error = none ∧
    (read blobOps (blobForm scenarioAble)).state.soundDataChunk = [1, 2, 3, 4] ∧
    (read blobOps (blobForm scenarioAble)).state.trace.getLast? =
      some (Event.decrypt [0x0F, 0x00]) := by
  decide

/-- The loop heads of Scenario A: the two sub-chunk headers, at 12 and 42. -/
theorem scenarioA_heads :
    walkHeads blobOps 54 42 (blobFormAt scenarioA 12) = [12, 42] := by
  decide

/-- An odd-sized last sub-chunk without pad byte: the walk completes one byte
past the declared region and the default Common chunk is then rejected. -/
theorem oddTail_read :
    (read blobOps (blobForm oddTail)).error = some .unsupportedCompression ∧
    (read blobOps (blobForm oddTail)).state.input.pos = 24 ∧
    headersOf (read blobOps (blobForm oddTail)).state.trace =
      [(makeId 'J' 'U' 'N' 'K', 20, 3)] := by
  decide

/-- Five bytes left in the region: the header is read across its end and the
bounds check fails although the declared size is 0. -/
theorem shortRegion_read :
    (read blobOps (blobForm shortRegion)).error = some .chunkBounds ∧
    headersOf (read blobOps (blobForm shortRegion)).state.trace =
      [(makeId 'J' 'U' 'N' 'K', 20, 0)] := by
  decide

/-- A negative outer size: the SoundData chunk that follows is never read. -/
theorem negativeOuter_read :
    (read blobOps (blobForm negativeOuter)).error = some .unsupportedCompression ∧
    (read blobOps (blobForm negativeOuter)).state.trace = [] ∧
    (read blobOps (blobForm negativeOuter)).state.soundDataChunk = [] := by
  decide

/-- A SoundData chunk cut short, read by leaf readers that throw on a short
read: the leaf reader's exception ends the read. -/
theorem truncatedSound_read :
    (read blobOps (blobForm truncatedSound)).error = some (.leaf 1) ∧
    headersOf (read blobOps (blobForm truncatedSound)).state.trace =
      [(makeId 'S' 'S' 'N' 'D', 20, 4)] := by
  decide

/-- A SoundData chunk cut short, read by leaf readers that do not check their
reads: the leaf reader returns, the seek to the end of the sub-chunk has no
effect on the failed stream, and the read of the next header throws. -/
theorem truncatedSound_raw_read :
    (read rawOps (blobForm truncatedSound)).error = some .truncatedRead ∧
    (read rawOps (blobForm truncatedSound)).state.input.failed = true ∧
    (read rawOps (blobForm truncatedSound)).state.input.tellg = -1 ∧
    (read rawOps (blobForm truncatedSound)).state.soundDataChunk = [1, 2] ∧
    headersOf (read rawOps (blobForm truncatedSound)).state.trace =
      [(makeId 'S' 'S' 'N' 'D', 20, 4)] := by
  decide

/-- An empty SoundData chunk at the end of the file, read by leaf readers that do
not check their reads: the read of the chunk's fixed fields fails without an
exception and the read of the next header throws. -/
theorem emptySound_raw_read :
    (read rawOps (blobForm emptySound)).error = some .truncatedRead ∧
    (read rawOps (blobForm emptySound)).state.input.failed = true ∧
    headersOf (read rawOps (blobForm emptySound)).state.trace =
      [(makeId 'S' 'S' 'N' 'D', 20, 0)] := by
  decide

end AbleDecoder
